import Mathlib

/-!
# Verification of the oxc expression / declaration parser fragments

Shallow embedding of
  `src/crates/oxc_parser/src/js/expression.rs` and
  `src/crates/oxc_parser/src/js/declaration.rs`
from the `oxc` repository.

Modelling conventions:

* The token stream is a `List Token`; the parser state (`PState`) carries the
  remaining tokens, the diagnostic sink (`errors`, append-only except that the
  model never needs a speculative rollback that buffered diagnostics), the
  grammar-mode `Context`, and the static configuration bits (`tsEnabled`,
  `preserveParens`).
* The mutable `&mut self` parser of the source becomes explicit state passing:
  every parse function has type `PState → Except Diag α × PState`, so the
  state (in particular the diagnostic sink and the context flags) survives
  fatal errors exactly as the `&mut self` receiver does in Rust.
* Recursion is bounded by an explicit fuel parameter: the whole mutually
  recursive family is packaged as a structure `Fam` of function fields, built
  by plain structural recursion on the fuel (`fam 0` fails with
  `Diag.outOfFuel`, `fam (n+1) = famStep (fam n)`).  Every call the Rust code
  makes — including each iteration of a `loop` — goes through `prev`, the
  family at one unit less fuel.  `Diag.outOfFuel` is an artifact of the
  embedding; the source's recursion is bounded by the input length.
* Token alphabet: the embedding covers the token kinds the analysed claims
  exercise (identifiers, numbers, `let`/`const`/`var`/`using`/`await`/`of`/
  `in`/`instanceof`, punctuation, the arithmetic operators, `**`, templates,
  private identifiers).  Kinds that cannot occur in the modeled streams
  (`yield`, `async`, `new`, `class`, `<`/`>` and the shift/logical operators,
  `++`/`--`, JSX, `as`/`satisfies`, string/boolean/null/bigint literals,
  decorators `@`, TemplateHead/Middle/Tail) are left out, and the source match
  arms that only those kinds can reach are omitted, each omission being noted
  at the corresponding place.
* Spans are not modeled (no claim concerns spans); diagnostics are identified
  by kind only.
* The `Kind` classification helpers, the precedence table, the binding-pattern
  parser, the cover grammar, ASI and the statement-level wrappers live outside
  the two source files; they are modelled from the spec and marked
  `Modelled from the spec:` in their doc comments.
-/

/-- Token kinds, restricted to the alphabet the claims exercise
(`lexer::Kind` in the source). -/
inductive Kind where
  | ident (name : String)
  | num (value : Nat)
  | privateIdent (name : String)
  | letKw
  | constKw
  | varKw
  | usingKw
  | awaitKw
  | ofKw
  | inKw
  | instanceofKw
  | dot
  | questionDot
  | lbrack
  | rbrack
  | lparen
  | rparen
  | semicolon
  | comma
  | colon
  | question
  | arrow
  | bang
  | eq
  | plus
  | minus
  | star
  | slash
  | star2
  | noSubstitutionTemplate
  | regExp
  | eof
deriving DecidableEq, Repr

/-- A token: kind plus the `is_on_new_line` flag (a line terminator
precedes the token). Spans are not modeled. -/
structure Token where
  kind : Kind
  isOnNewLine : Bool := false
deriving DecidableEq, Repr

/-- Diagnostics, identified by kind (the `diagnostics::*` constructors used by
the embedded functions).  `outOfFuel` is an artifact of the fuel-bounded
embedding and corresponds to no source diagnostic. -/
inductive Diag where
  | outOfFuel
  | unexpected (found : Kind)
  | emptyParenthesizedExpression
  | identifierAsync
  | identifierGenerator
  | invalidDestructuringDeclaration
  | missingInitializerInConst
  | lineTerminatorBeforeUsing
  | awaitInUsingDeclaration
  | invalidIdentifierInUsingDeclaration
  | missingInitializerInUsingDeclaration
  | modifierCannotBeUsedHere
  | optionalChainTaggedTemplate
  | awaitExpressionOutsideAsync
  | autoSemicolonInsertion
  | invalidAssignmentTarget
deriving DecidableEq, Repr

/-- The grammar-mode flag set (`Context` in the source): independently
togglable booleans threaded through recursive calls. -/
structure Context where
  inFlag : Bool := false
  yieldFlag : Bool := false
  awaitFlag : Bool := false
  decoratorFlag : Bool := false
  ambientFlag : Bool := false
deriving DecidableEq, Repr

/-- `Context::union` (bitflags union). -/
def Context.union (a b : Context) : Context :=
  ⟨a.inFlag || b.inFlag, a.yieldFlag || b.yieldFlag, a.awaitFlag || b.awaitFlag,
   a.decoratorFlag || b.decoratorFlag, a.ambientFlag || b.ambientFlag⟩

/-- `Context::difference` (bitflags difference). -/
def Context.difference (a b : Context) : Context :=
  ⟨a.inFlag && !b.inFlag, a.yieldFlag && !b.yieldFlag, a.awaitFlag && !b.awaitFlag,
   a.decoratorFlag && !b.decoratorFlag, a.ambientFlag && !b.ambientFlag⟩

/-- `Context::empty()`. -/
def Context.emptyCtx : Context := {}

/-- The singleton flag set `Context::In`. -/
def Context.inCtx : Context := { inFlag := true }

/-- The singleton flag set `Context::Decorator`. -/
def Context.decoratorCtx : Context := { decoratorFlag := true }

/-- The singleton flag set `Context::Await`. -/
def Context.awaitCtx : Context := { awaitFlag := true }

/-- `Context::and_decorator` — return the set with the Decorator flag set to
`b`. -/
def Context.and_decorator (c : Context) (b : Bool) : Context :=
  { c with decoratorFlag := b }

/-- `Context::has_in`. -/
def Context.has_in (c : Context) : Bool := c.inFlag

/-- `Context::has_await`. -/
def Context.has_await (c : Context) : Bool := c.awaitFlag

/-- `Context::has_yield`. -/
def Context.has_yield (c : Context) : Bool := c.yieldFlag

/-- `Context::has_decorator`. -/
def Context.has_decorator (c : Context) : Bool := c.decoratorFlag

/-- `Context::has_ambient`. -/
def Context.has_ambient (c : Context) : Bool := c.ambientFlag

/-- Unary operator tags (`oxc_syntax::operator::UnaryOperator`, restricted to
the modeled alphabet). -/
inductive UnaryOp where
  | plusOp
  | minusOp
  | notOp
deriving DecidableEq, Repr

/-- Binary operator tags (`oxc_syntax::operator::BinaryOperator`, restricted
to the modeled alphabet). -/
inductive BinOp where
  | add
  | sub
  | mul
  | div
  | exp
  | inOp
  | instanceofOp
deriving DecidableEq, Repr

/-- Expression AST nodes, the image of the `ast` builder calls made by the
embedded functions. -/
inductive Expression where
  | identifierReference (name : String)
  | numberLit (value : Nat)
  | regExpLit
  | templateLiteralExpr
  | arrayExpr (elements : List Expression)
  | parenthesizedExpr (expression : Expression)
  | privateInExpression (left : String) (right : Expression)
  | staticMember (object : Expression) (property : String) (optional : Bool)
  | privateFieldMember (object : Expression) (property : String) (optional : Bool)
  | computedMember (object : Expression) (property : Expression) (optional : Bool)
  | call (callee : Expression) (arguments : List Expression) (optional : Bool)
  | taggedTemplate (tag : Expression)
  | tsNonNull (expression : Expression)
  | chain (expression : Expression)
  | unary (op : UnaryOp) (argument : Expression)
  | binary (op : BinOp) (left : Expression) (right : Expression)
  | logical (op : BinOp) (left : Expression) (right : Expression)
  | assignment (target : Expression) (value : Expression)
  | sequence (expressions : List Expression)
  | awaitExpr (argument : Expression)
  | conditional (test : Expression) (consequent : Expression) (alternate : Expression)
  | arrowFunction (params : List String) (body : Expression)
deriving Repr

/-- `Expression::is_identifier_reference`. -/
def Expression.is_identifier_reference : Expression → Bool
  | .identifierReference _ => true
  | _ => false

/-- The three `MemberExpression` variants (`match_member_expression!`). -/
def Expression.isMemberExpression : Expression → Bool
  | .staticMember _ _ _ => true
  | .privateFieldMember _ _ _ => true
  | .computedMember _ _ _ => true
  | _ => false

/-- Top-level constructor is a chain expression. -/
def Expression.isChainExpression : Expression → Bool
  | .chain _ => true
  | _ => false

/-- Top-level constructor is an await expression. -/
def Expression.isAwaitExpression : Expression → Bool
  | .awaitExpr _ => true
  | _ => false

/-- Top-level constructor is a call expression. -/
def Expression.isCallExpression : Expression → Bool
  | .call _ _ _ => true
  | _ => false

/-- Binding target of one declarator (identifier, or a destructuring pattern;
object patterns are outside the modeled alphabet). -/
inductive BindingPatternKind where
  | bindingIdentifier (name : String)
  | arrayPattern (names : List String)
deriving DecidableEq, Repr

/-- `BindingPatternKind::is_binding_identifier`. -/
def BindingPatternKind.is_binding_identifier : BindingPatternKind → Bool
  | .bindingIdentifier _ => true
  | _ => false

/-- A binding pattern: the kind plus the TS extras attached in
`parse_variable_declarator` (type annotation presence, `?` marker). -/
structure BindingPattern where
  kind : BindingPatternKind
  hasTypeAnnot : Bool := false
  optional : Bool := false
deriving DecidableEq, Repr

/-- `VariableDeclarationKind` (`var` / `let` / `const`). -/
inductive VariableDeclarationKind where
  | varKind
  | letKind
  | constKind
deriving DecidableEq, Repr

/-- A single declarator (`VariableDeclarator`). -/
structure VariableDeclarator where
  kind : VariableDeclarationKind
  id : BindingPattern
  init : Option Expression
  definite : Bool := false
deriving Repr

/-- A whole declaration (`VariableDeclaration`). -/
structure VariableDeclaration where
  kind : VariableDeclarationKind
  declarations : List VariableDeclarator
  declareModifier : Bool := false
deriving Repr

/-- A `using` declaration (`UsingDeclaration`). -/
structure UsingDeclaration where
  isAwait : Bool
  declarations : List VariableDeclarator
deriving Repr

/-- The statement forms produced by the embedded declaration parser. -/
inductive Statement where
  | expressionStatement (expression : Expression)
  | declarationStatement (declaration : VariableDeclaration)
  | usingStatement (declaration : UsingDeclaration)
deriving Repr

/-- `VariableDeclarationParent` — what syntactic position the declaration
occupies. -/
inductive VariableDeclarationParent where
  | statement
  | clause
  | forParent
deriving DecidableEq, Repr

/-- `VariableDeclarationContext`. -/
structure VariableDeclarationContext where
  parent : VariableDeclarationParent
deriving DecidableEq, Repr

/-- `StatementContext` (external enum consumed by the declaration parser). -/
inductive StatementContext where
  | statementList
  | ifSingle
  | forCtx
deriving DecidableEq, Repr

/-- `StatementContext::is_single_statement` — every context except a
statement list is a single-statement position. -/
def StatementContext.is_single_statement : StatementContext → Bool
  | .statementList => false
  | _ => true

/-- `ModifierKind`, restricted to what `parse_variable_declaration`
distinguishes: `declare` versus anything else. -/
inductive ModifierKind where
  | declareModifierKind
  | otherModifierKind
deriving DecidableEq, Repr

/-- A list of modifiers (`Modifiers`). -/
abbrev Modifiers : Type := List ModifierKind

/-- `Modifiers::is_contains_declare`. -/
def modifiersContainDeclare (ms : Modifiers) : Bool :=
  ms.contains ModifierKind.declareModifierKind

/-- Modelled from the spec: `Kind::is_assignment_operator` — assignment
operators; `=` is the only one in the modeled alphabet (`+=`, `-=`, … are
outside it). -/
def Kind.is_assignment_operator : Kind → Bool
  | .eq => true
  | _ => false

/-- Modelled from the spec: `Kind::is_binary_operator` — the binary
(non-logical) operator tokens of the modeled alphabet. -/
def Kind.is_binary_operator : Kind → Bool
  | .plus | .minus | .star | .slash | .star2 | .inKw | .instanceofKw => true
  | _ => false

/-- Modelled from the spec: `Kind::is_logical_operator`.  `&&`, `||` and `??`
are outside the modeled alphabet, so no modeled kind is a logical operator. -/
def Kind.is_logical_operator : Kind → Bool
  | _ => false

/-- Modelled from the spec: `Kind::is_unary_operator` — prefix unary operator
tokens (`delete`, `void`, `typeof`, `~` are outside the modeled alphabet). -/
def Kind.is_unary_operator : Kind → Bool
  | .plus | .minus | .bang => true
  | _ => false

/-- Modelled from the spec: `Kind::is_update_operator`.  `++` and `--` are
outside the modeled alphabet, so no modeled kind is an update operator. -/
def Kind.is_update_operator : Kind → Bool
  | _ => false

/-- Modelled from the spec: `Kind::is_literal` restricted to the modeled
alphabet (string/boolean/null/bigint literal kinds are outside it). -/
def Kind.is_literal : Kind → Bool
  | .num _ => true
  | _ => false

/-- Modelled from the spec: `Kind::is_identifier_name` — identifiers plus any
keyword, as after a `.` every keyword is a plain property name. -/
def Kind.is_identifier_name : Kind → Bool
  | .ident _ | .letKw | .constKw | .varKw | .usingKw | .awaitKw | .ofKw
  | .inKw | .instanceofKw => true
  | _ => false

/-- Modelled from the spec: `Kind::is_identifier_reference excludeYield
excludeAwait` — identifiers and the contextual keywords, with `await`
excluded when the parameter says so (`yield` is outside the alphabet). -/
def Kind.is_identifier_reference (k : Kind) (_excludeYield excludeAwait : Bool) : Bool :=
  match k with
  | .ident _ | .letKw | .usingKw | .ofKw => true
  | .awaitKw => !excludeAwait
  | _ => false

/-- Modelled from the spec: `Kind::is_binding_identifier`. -/
def Kind.is_binding_identifier : Kind → Bool
  | .ident _ | .letKw | .usingKw | .ofKw | .awaitKw => true
  | _ => false

/-- Modelled from the spec: `Kind::is_template_start_of_tagged_template` —
`NoSubstitutionTemplate` or `TemplateHead`; only the former is in the modeled
alphabet. -/
def Kind.is_template_start_of_tagged_template : Kind → Bool
  | .noSubstitutionTemplate => true
  | _ => false

/-- Modelled from the spec: `Kind::is_after_await_or_yield` — a token that can
start an operand after `await`: not a binary operator, and a token that can
begin an expression. -/
def Kind.is_after_await_or_yield (k : Kind) : Bool :=
  !k.is_binary_operator &&
    (match k with
     | .ident _ | .num _ | .privateIdent _ | .noSubstitutionTemplate
     | .letKw | .usingKw | .ofKw | .awaitKw
     | .lparen | .lbrack | .slash | .bang => true
     | _ => false)

/-- Modelled from the spec: the source text of a token, for the kinds the
parser converts into identifiers (`cur_string`). -/
def cur_string : Kind → String
  | .ident n => n
  | .privateIdent n => n
  | .letKw => "let"
  | .constKw => "const"
  | .varKw => "var"
  | .usingKw => "using"
  | .awaitKw => "await"
  | .ofKw => "of"
  | .inKw => "in"
  | .instanceofKw => "instanceof"
  | _ => ""

/-- Modelled from the spec: operator precedence, a total order (here: `Nat`)
over binary-operator tokens.  Only the relative order matters: relational
(`in`, `instanceof`) < additive < multiplicative < exponentiation. -/
def Precedence.lowest : Nat := 0

/-- Relational precedence (`in` / `instanceof`). -/
def Precedence.compareLevel : Nat := 9

/-- Additive precedence (`+` / `-`). -/
def Precedence.addLevel : Nat := 12

/-- Multiplicative precedence (`*` / `/`). -/
def Precedence.multiplyLevel : Nat := 13

/-- Exponentiation precedence (`**`). -/
def Precedence.exponentiateLevel : Nat := 14

/-- Modelled from the spec: `Precedence::is_right_associative` — within one
precedence level all operators share associativity; exponentiation is the
right-associative binary level. -/
def isRightAssociative (p : Nat) : Bool :=
  p == Precedence.exponentiateLevel

/-- Modelled from the spec: `kind_to_precedence` — the precedence of a binary
operator token, `none` for every other token. -/
def kind_to_precedence : Kind → Option Nat
  | .inKw => some Precedence.compareLevel
  | .instanceofKw => some Precedence.compareLevel
  | .plus => some Precedence.addLevel
  | .minus => some Precedence.addLevel
  | .star => some Precedence.multiplyLevel
  | .slash => some Precedence.multiplyLevel
  | .star2 => some Precedence.exponentiateLevel
  | _ => none

/-- `map_unary_operator` (total on the modeled unary-operator kinds; the
fallback is unreachable because callers guard with `is_unary_operator`). -/
def map_unary_operator : Kind → UnaryOp
  | .plus => .plusOp
  | .minus => .minusOp
  | _ => .notOp

/-- `map_binary_operator` (fallback unreachable, callers guard with
`is_binary_operator`). -/
def map_binary_operator : Kind → BinOp
  | .plus => .add
  | .minus => .sub
  | .star => .mul
  | .slash => .div
  | .star2 => .exp
  | .inKw => .inOp
  | _ => .instanceofOp

/-- `map_logical_operator`.  No modeled kind is a logical operator, so this
map is never consulted on a live path; it is kept so the binary fold keeps
the source's shape. -/
def map_logical_operator : Kind → BinOp
  | _ => .add

/-- The parser state: remaining tokens, the diagnostic sink, the context
flags, and static configuration (`ts_enabled`, `preserve_parens`). -/
structure PState where
  tokens : List Token
  errors : List Diag := []
  ctx : Context := {}
  tsEnabled : Bool := false
  preserveParens : Bool := false
deriving Repr

/-- The end-of-input sentinel token. -/
def eofToken : Token := { kind := .eof }

/-- `cur_token`. -/
def PState.curToken (s : PState) : Token := s.tokens.headD eofToken

/-- `cur_kind`. -/
def PState.curKind (s : PState) : Kind := s.curToken.kind

/-- `peek_token` (one-token lookahead). -/
def PState.peekToken (s : PState) : Token := (s.tokens.drop 1).headD eofToken

/-- `peek_kind`. -/
def PState.peekKind (s : PState) : Kind := s.peekToken.kind

/-- `bump_any` / `bump_remap` — advance past the current token. -/
def PState.bump (s : PState) : PState := { s with tokens := s.tokens.tail }

/-- `eat kind` — advance and report `true` iff the current token has the given
kind. -/
def PState.eat (s : PState) (k : Kind) : Bool × PState :=
  if s.curKind = k then (true, s.bump) else (false, s)

/-- `error(diagnostic)` — append a recoverable diagnostic to the sink. -/
def PState.pushError (s : PState) (d : Diag) : PState :=
  { s with errors := s.errors ++ [d] }

/-- Result of a fallible parse: the `Result<T>` value together with the state
the `&mut self` receiver is left in (also on error). -/
abbrev PResult (α : Type) : Type := Except Diag α × PState

/-- Successful return. -/
def pok {α : Type} (a : α) (s : PState) : PResult α := (Except.ok a, s)

/-- Fatal error return (the `?` operator's propagation path). -/
def perr {α : Type} (d : Diag) (s : PState) : PResult α := (Except.error d, s)

/-- Sequencing with `?`-propagation: on error, the error and the state at the
error are returned unchanged. -/
def pbind {α β : Type} (x : PResult α) (f : α → PState → PResult β) : PResult β :=
  match x with
  | (Except.error d, s) => (Except.error d, s)
  | (Except.ok a, s) => f a s

/-- `expect kind` — fatal `unexpected` error unless the current token has the
given kind. -/
def expectKind (k : Kind) (s : PState) : PResult Unit :=
  if s.curKind = k then pok () s.bump else perr (.unexpected s.curKind) s

/-- Entering a scoped context: `ctx.union(add).difference(remove)`. -/
def enterCtx (add remove : Context) (s : PState) : PState :=
  { s with ctx := (s.ctx.union add).difference remove }

/-- Restoring the saved context on the way out of a scoped sub-parse (the
restore happens before the `?` propagation, hence also on error). -/
def restoreCtx {α : Type} (saved : Context) (r : PResult α) : PResult α :=
  (r.1, { r.2 with ctx := saved })

/-- Modelled from the spec: `self.context(add, remove, f)` — run `f` with the
flags in `add` set and the flags in `remove` cleared, then restore the
caller's flags, also when `f` fails. -/
def withCtx {α : Type} (add remove : Context) (f : PState → PResult α) (s : PState) :
    PResult α :=
  restoreCtx s.ctx (f (enterCtx add remove s))

/-- `check_identifier` — report (non-fatally) `await` used where the context
has the Await flag, and `yield` where it has the Yield flag. -/
def check_identifier (name : String) (s : PState) : PState :=
  let s := if s.ctx.has_await ∧ name = "await" then s.pushError .identifierAsync else s
  if s.ctx.has_yield ∧ name = "yield" then s.pushError .identifierGenerator else s

/-- `parse_identifier_reference` — `await`/`yield` are allowed here
(`is_identifier_reference(false, false)`), semantic analysis reports them via
`check_identifier`. -/
def parse_identifier_reference (s : PState) : PResult String :=
  if (s.curKind.is_identifier_reference false false) = false then
    perr (.unexpected s.curKind) s
  else
    let name := cur_string s.curKind
    pok name (check_identifier name s.bump)

/-- `parse_identifier_expression` — identifier-reference primary expression. -/
def parse_identifier_expression (s : PState) : PResult Expression :=
  pbind (parse_identifier_reference s) fun name s =>
  pok (.identifierReference name) s

/-- `parse_identifier_name`. -/
def parse_identifier_name (s : PState) : PResult String :=
  if s.curKind.is_identifier_name = false then perr (.unexpected s.curKind) s
  else pok (cur_string s.curKind) s.bump

/-- `parse_private_identifier` (the caller has checked the kind). -/
def parse_private_identifier (s : PState) : String × PState :=
  (cur_string s.curKind, s.bump)

/-- `parse_literal_expression`, restricted to the modeled literal kinds:
numbers only (string/boolean/null/bigint/regexp-rescan literal kinds are
outside the modeled alphabet, and separator/base handling lives in the
external lexer helpers). -/
def parse_literal_expression (s : PState) : PResult Expression :=
  match s.curKind with
  | .num v => pok (.numberLit v) s.bump
  | k => perr (.unexpected k) s

/-- `parse_template_literal tagged` — in the modeled alphabet a template is a
single `NoSubstitutionTemplate` token (TemplateHead/Middle/Tail and the
interpolated-expression loop are outside the alphabet); escape sequences are
assumed valid, so the untagged invalid-escape diagnostic does not arise.  The
fallback arm is `unreachable!` in the source, modeled as a fatal error. -/
def parse_template_literal (_tagged : Bool) (s : PState) : PResult Unit :=
  match s.curKind with
  | .noSubstitutionTemplate => pok () s.bump
  | k => perr (.unexpected k) s

/-- `parse_tagged_template` — parse the quasi, then report (non-fatally) the
spec-mandated early error when the tag follows an optional-chain link, and
still produce the tagged-template node.  (`TSInstantiationExpression`
unwrapping is outside the modeled alphabet: no `<` token exists here, so the
`type_parameters` argument is dropped.) -/
def parse_tagged_template (lhs : Expression) (inOptionalChain : Bool) (s : PState) :
    PResult Expression :=
  pbind (parse_template_literal true s) fun _ s =>
  let s := if inOptionalChain then s.pushError .optionalChainTaggedTemplate else s
  pok (.taggedTemplate lhs) s

/-- `re_lex_right_angle` — the re-lex hook for `>` sequences; no `>` token is
in the modeled alphabet, so it returns the current kind unchanged. -/
def re_lex_right_angle (s : PState) : Kind := s.curKind

/-- `is_update_expression` — decide between the update-expression layer and
the simple-unary layer (the JSX `<` arm is outside the modeled alphabet). -/
def is_update_expression (s : PState) : Bool :=
  if s.curKind.is_unary_operator then false
  else if s.curKind = .awaitKw then false
  else true

/-- `is_await_expression` — the lookahead disambiguation for `await`:
an `=>` lookahead always yields an identifier (arrow parameter); with the
Await context flag set, anything else is an await expression; otherwise the
ambiguous followers `of` `(` `[` `/` and a regexp token yield an identifier,
and the remaining tokens yield an await expression exactly when they are on
the same line and can start an operand. -/
def is_await_expression (s : PState) : Bool :=
  if s.curKind = .awaitKw then
    if s.peekToken.kind = .arrow then false
    else if s.ctx.has_await then true
    else if s.peekToken.kind = .ofKw ∨ s.peekToken.kind = .lparen ∨
            s.peekToken.kind = .lbrack ∨ s.peekToken.kind = .slash ∨
            s.peekToken.kind = .regExp then false
    else !(s.peekToken).isOnNewLine && (s.peekToken).kind.is_after_await_or_yield
  else false

/-- `map_to_chain_expression` — wrap the accumulated chain in a chain node
when its outermost variant is a member expression or a call expression;
return any other expression unchanged. -/
def map_to_chain_expression (expr : Expression) : Expression :=
  match expr with
  | .staticMember o p b => .chain (.staticMember o p b)
  | .privateFieldMember o p b => .chain (.privateFieldMember o p b)
  | .computedMember o p b => .chain (.computedMember o p b)
  | .call c a b => .chain (.call c a b)
  | e => e

/-- `parse_static_member_expression` — advance past `.` or `?.`, then a
private field or an identifier name. -/
def parse_static_member_expression (lhs : Expression) (optional : Bool) (s : PState) :
    PResult Expression :=
  let s := s.bump
  match s.curKind with
  | .privateIdent _ =>
    let (name, s) := parse_private_identifier s
    pok (.privateFieldMember lhs name optional) s
  | _ =>
    pbind (parse_identifier_name s) fun name s =>
    pok (.staticMember lhs name optional) s

/-- Modelled from the spec: ASI — consume an explicit `;`; otherwise the
semicolon may be inserted at end of input or before a token preceded by a
line terminator; anything else is a fatal error. -/
def asi (s : PState) : PResult Unit :=
  if s.curKind = .semicolon then pok () s.bump
  else if s.curKind = .eof ∨ s.curToken.isOnNewLine then pok () s
  else perr .autoSemicolonInsertion s

/-- Modelled from the spec: `parse_expression_statement` — apply ASI, then
build the expression-statement node. -/
def parse_expression_statement (expr : Expression) (s : PState) : PResult Statement :=
  pbind (asi s) fun _ s =>
  pok (.expressionStatement expr) s

/-- Modelled from the spec: the element collection of the external
binding-pattern parser for an array pattern — after `[`, identifier names and
commas up to the closing `]` (nested patterns are not modeled). -/
def collectArrayPatternNames : List Token → Option (List String × List Token)
  | [] => none
  | t :: rest =>
    match t.kind with
    | .rbrack => some ([], rest)
    | .comma =>
      match collectArrayPatternNames rest with
      | some (ns, toks) => some (ns, toks)
      | none => none
    | .ident n =>
      match collectArrayPatternNames rest with
      | some (ns, toks) => some (n :: ns, toks)
      | none => none
    | _ => none

/-- Modelled from the spec: `parse_binding_pattern_kind` — the external
binding-pattern parser: a plain-identifier binding, or (after `[`) an array
destructuring pattern (object patterns are outside the modeled alphabet). -/
def parse_binding_pattern_kind (s : PState) : PResult BindingPatternKind :=
  match s.curKind with
  | .lbrack =>
    match collectArrayPatternNames s.tokens.tail with
    | some (ns, toks) => pok (.arrayPattern ns) { s with tokens := toks }
    | none => perr (.unexpected .lbrack) s
  | k =>
    if k.is_binding_identifier then pok (.bindingIdentifier (cur_string k)) s.bump
    else perr (.unexpected k) s

/-- Modelled from the spec: `parse_ts_type_annot` — the external
type-annotation parser (type-aware mode): `: TypeName` if a colon is present;
returns whether an annotation was parsed. -/
def parse_ts_type_annot (s : PState) : PResult Bool :=
  if s.curKind = .colon then
    match s.peekKind with
    | .ident _ => pok true s.bump.bump
    | k => perr (.unexpected k) s
  else pok false s

/-- Modelled from the spec: the speculative type-argument parse attempted
before `(` or a template (`try_parse(parse_ts_type_arguments_in_expression)`).
It must report failure without side effects; no `<` token exists in the
modeled alphabet, so it fails (reports `none`) on every modeled stream. -/
def try_parse_ts_type_arguments (s : PState) : Option Unit × PState :=
  (none, s)

/-- Modelled from the spec: `AssignmentTarget::cover` — a simple identifier or
member expression is accepted as-is; array (and object) expressions are
converted element-wise into assignment patterns (represented here by the
original expression); any other expression is a reported error and parsing
continues using the original expression. -/
def assignmentTargetCover (lhs : Expression) (s : PState) : PResult Expression :=
  match lhs with
  | .identifierReference n => pok (.identifierReference n) s
  | .staticMember o p b => pok (.staticMember o p b) s
  | .privateFieldMember o p b => pok (.privateFieldMember o p b) s
  | .computedMember o p b => pok (.computedMember o p b) s
  | .arrayExpr es => pok (.arrayExpr es) s
  | e => pok e (s.pushError .invalidAssignmentTarget)

/-- Modelled from the spec: the balanced scan of the speculative
"parenthesized arrow parameters" attempt: after `(`, simple identifier
parameters and commas up to `)`; succeeds only when `=>` follows. -/
def scanSimpleArrowParams : List Token → Option (List String × List Token)
  | [] => none
  | t :: rest =>
    match t.kind with
    | .rparen =>
      match rest with
      | t2 :: rest2 => if t2.kind = .arrow then some ([], rest2) else none
      | [] => none
    | .comma =>
      match scanSimpleArrowParams rest with
      | some (ns, toks) => some (ns, toks)
      | none => none
    | .ident n =>
      match scanSimpleArrowParams rest with
      | some (ns, toks) => some (n :: ns, toks)
      | none => none
    | _ => none

/-- The mutually recursive family of parse functions, one field per source
function (plus explicit loop helpers for the source's internal `loop`s and
`SeparatedList` drivers).  `fam n` below instantiates it at fuel `n`. -/
structure Fam where
  parse_expr : PState → PResult Expression
  parse_sequence_expression : List Expression → PState → PResult Expression
  parse_assignment_expression_or_higher : PState → PResult Expression
  try_parse_parenthesized_arrow_function_expression : PState → PResult (Option Expression)
  parse_simple_arrow_function_expression : Expression → PState → PResult Expression
  parse_assignment_expression_recursive : Expression → PState → PResult Expression
  parse_conditional_expression_rest : Expression → PState → PResult Expression
  parse_binary_expression_or_higher : Nat → PState → PResult Expression
  parse_binary_expression_rest : Expression → Nat → PState → PResult Expression
  parse_unary_expression_or_higher : PState → PResult Expression
  parse_simple_unary_expression : PState → PResult Expression
  parse_unary_expression : PState → PResult Expression
  parse_await_expression : PState → PResult Expression
  parse_update_expression : PState → PResult Expression
  parse_lhs_expression_or_higher : PState → PResult Expression
  parse_member_expression_or_higher : Bool → PState → PResult (Expression × Bool)
  parse_member_expression_rest : Expression → Bool → PState → PResult (Expression × Bool)
  parse_primary_expression : PState → PResult Expression
  parse_parenthesized_expression : PState → PResult Expression
  parse_sequence_expression_list : PState → PResult (List Expression)
  parse_sequence_expression_list_rest : List Expression → PState → PResult (List Expression)
  parse_array_expression : PState → PResult Expression
  parse_array_expression_list : PState → PResult (List Expression)
  parse_array_expression_list_rest : List Expression → PState → PResult (List Expression)
  parse_computed_member_expression : Expression → Bool → PState → PResult Expression
  parse_call_expression_rest : Expression → Bool → PState → PResult (Expression × Bool)
  parse_call_arguments : Expression → Bool → PState → PResult Expression
  parse_call_arguments_list : PState → PResult (List Expression)
  parse_call_arguments_list_rest : List Expression → PState → PResult (List Expression)
  parse_let : StatementContext → PState → PResult Statement
  parse_variable_statement : StatementContext → PState → PResult Statement
  parse_variable_declaration :
    VariableDeclarationContext → Modifiers → PState → PResult VariableDeclaration
  parse_variable_declaration_list :
    VariableDeclarationContext → VariableDeclarationKind → List VariableDeclarator →
    PState → PResult (List VariableDeclarator)
  parse_variable_declarator :
    VariableDeclarationContext → VariableDeclarationKind → PState → PResult VariableDeclarator
  parse_using_declaration : StatementContext → PState → PResult UsingDeclaration
  parse_using_declaration_list :
    StatementContext → List VariableDeclarator → PState → PResult (List VariableDeclarator)
  parse_using : PState → PResult Statement

/-- The family at fuel 0: every function fails with the fuel artifact. -/
def famZero : Fam where
  parse_expr := fun s => perr .outOfFuel s
  parse_sequence_expression := fun _ s => perr .outOfFuel s
  parse_assignment_expression_or_higher := fun s => perr .outOfFuel s
  try_parse_parenthesized_arrow_function_expression := fun s => perr .outOfFuel s
  parse_simple_arrow_function_expression := fun _ s => perr .outOfFuel s
  parse_assignment_expression_recursive := fun _ s => perr .outOfFuel s
  parse_conditional_expression_rest := fun _ s => perr .outOfFuel s
  parse_binary_expression_or_higher := fun _ s => perr .outOfFuel s
  parse_binary_expression_rest := fun _ _ s => perr .outOfFuel s
  parse_unary_expression_or_higher := fun s => perr .outOfFuel s
  parse_simple_unary_expression := fun s => perr .outOfFuel s
  parse_unary_expression := fun s => perr .outOfFuel s
  parse_await_expression := fun s => perr .outOfFuel s
  parse_update_expression := fun s => perr .outOfFuel s
  parse_lhs_expression_or_higher := fun s => perr .outOfFuel s
  parse_member_expression_or_higher := fun _ s => perr .outOfFuel s
  parse_member_expression_rest := fun _ _ s => perr .outOfFuel s
  parse_primary_expression := fun s => perr .outOfFuel s
  parse_parenthesized_expression := fun s => perr .outOfFuel s
  parse_sequence_expression_list := fun s => perr .outOfFuel s
  parse_sequence_expression_list_rest := fun _ s => perr .outOfFuel s
  parse_array_expression := fun s => perr .outOfFuel s
  parse_array_expression_list := fun s => perr .outOfFuel s
  parse_array_expression_list_rest := fun _ s => perr .outOfFuel s
  parse_computed_member_expression := fun _ _ s => perr .outOfFuel s
  parse_call_expression_rest := fun _ _ s => perr .outOfFuel s
  parse_call_arguments := fun _ _ s => perr .outOfFuel s
  parse_call_arguments_list := fun s => perr .outOfFuel s
  parse_call_arguments_list_rest := fun _ s => perr .outOfFuel s
  parse_let := fun _ s => perr .outOfFuel s
  parse_variable_statement := fun _ s => perr .outOfFuel s
  parse_variable_declaration := fun _ _ s => perr .outOfFuel s
  parse_variable_declaration_list := fun _ _ _ s => perr .outOfFuel s
  parse_variable_declarator := fun _ _ s => perr .outOfFuel s
  parse_using_declaration := fun _ s => perr .outOfFuel s
  parse_using_declaration_list := fun _ _ s => perr .outOfFuel s
  parse_using := fun s => perr .outOfFuel s

/-- One fuel step: each field is the body of the corresponding source
function, with every recursive call (including loop iterations) going through
`prev`. -/
def famStep (prev : Fam) : Fam where
  -- expression.rs `parse_expr`: clear the Decorator flag, parse one
  -- assignment-level expression, return it directly unless a comma follows;
  -- otherwise parse the sequence and set the Decorator flag back.
  parse_expr := fun s =>
    let hasDecorator := s.ctx.has_decorator
    let s := if hasDecorator then { s with ctx := s.ctx.and_decorator false } else s
    pbind (prev.parse_assignment_expression_or_higher s) fun lhs s =>
    if s.curKind ≠ Kind.comma then pok lhs s
    else
      pbind (prev.parse_sequence_expression [lhs] s) fun expr s =>
      let s := if hasDecorator then { s with ctx := s.ctx.and_decorator true } else s
      pok expr s
  -- expression.rs `parse_sequence_expression`: `while self.eat(Comma)` push
  -- one assignment-level expression.
  parse_sequence_expression := fun expressions s =>
    let (more, s) := s.eat Kind.comma
    if more then
      pbind (prev.parse_assignment_expression_or_higher s) fun expression s =>
      prev.parse_sequence_expression (expressions ++ [expression]) s
    else pok (.sequence expressions) s
  -- expression.rs `parse_assignment_expression_or_higher`.  The YieldExpression
  -- branch and the async simple-arrow branch need `yield` / `async` tokens,
  -- which are outside the modeled alphabet.
  parse_assignment_expression_or_higher := fun s =>
    pbind (prev.try_parse_parenthesized_arrow_function_expression s) fun arrowOpt s =>
    match arrowOpt with
    | some arrowExpr => pok arrowExpr s
    | none =>
      pbind (prev.parse_binary_expression_or_higher Precedence.lowest s) fun lhs s =>
      let kind := s.curKind
      if lhs.is_identifier_reference ∧ kind = Kind.arrow then
        prev.parse_simple_arrow_function_expression lhs s
      else if kind.is_assignment_operator then
        prev.parse_assignment_expression_recursive lhs s
      else
        prev.parse_conditional_expression_rest lhs s
  -- Modelled from the spec: the speculative "parameter list followed by `=>`"
  -- attempt (`arrow.rs`, outside src/): on failure the cursor and the
  -- diagnostics are untouched; on success the arrow is committed.
  try_parse_parenthesized_arrow_function_expression := fun s =>
    if s.curKind ≠ Kind.lparen then pok none s
    else
      match scanSimpleArrowParams s.tokens.tail with
      | none => pok none s
      | some (params, toks) =>
        pbind (prev.parse_assignment_expression_or_higher { s with tokens := toks }) fun body s =>
        pok (some (.arrowFunction params body)) s
  -- Modelled from the spec: the bare-identifier arrow `x => …`, committed
  -- without backtracking (`arrow.rs`, outside src/).
  parse_simple_arrow_function_expression := fun lhs s =>
    let param :=
      match lhs with
      | .identifierReference n => n
      | _ => ""
    pbind (expectKind Kind.arrow s) fun _ s =>
    pbind (prev.parse_assignment_expression_or_higher s) fun body s =>
    pok (.arrowFunction [param] body) s
  -- expression.rs `parse_assignment_expression_recursive`: cover the lhs as an
  -- assignment target, bump the operator (`=` is the only assignment operator
  -- in the modeled alphabet), parse the right side.
  parse_assignment_expression_recursive := fun lhs s =>
    pbind (assignmentTargetCover lhs s) fun left s =>
    let s := s.bump
    pbind (prev.parse_assignment_expression_or_higher s) fun right s =>
    pok (.assignment left right) s
  -- expression.rs `parse_conditional_expression_rest`.
  parse_conditional_expression_rest := fun lhs s =>
    let (ate, s) := s.eat Kind.question
    if ate = false then pok lhs s
    else
      pbind (withCtx Context.inCtx Context.emptyCtx
          prev.parse_assignment_expression_or_higher s) fun consequent s =>
      pbind (expectKind Kind.colon s) fun _ s =>
      pbind (prev.parse_assignment_expression_or_higher s) fun alternate s =>
      pok (.conditional lhs consequent alternate) s
  -- expression.rs `parse_binary_expression_or_higher`: the `#x in obj`
  -- special case ahead of the unary layer, then the climbing loop.
  parse_binary_expression_or_higher := fun minPrecedence s =>
    if s.ctx.has_in then
      match s.curKind with
      | .privateIdent name =>
        let s := s.bump
        pbind (expectKind Kind.inKw s) fun _ s =>
        pbind (prev.parse_unary_expression_or_higher s) fun right s =>
        prev.parse_binary_expression_rest (.privateInExpression name right) minPrecedence s
      | _ =>
        pbind (prev.parse_unary_expression_or_higher s) fun lhs s =>
        prev.parse_binary_expression_rest lhs minPrecedence s
    else
      pbind (prev.parse_unary_expression_or_higher s) fun lhs s =>
      prev.parse_binary_expression_rest lhs minPrecedence s
  -- expression.rs `parse_binary_expression_rest` (Pratt loop): re-lex `>`
  -- (identity here), look up precedence, stop on the associativity-sensitive
  -- comparison, stop on `in` when the context forbids it, otherwise bump the
  -- operator, recurse with the operator's precedence and fold.  The
  -- `as`/`satisfies` type-cast arm needs tokens outside the modeled alphabet.
  parse_binary_expression_rest := fun lhs minPrecedence s =>
    let kind := re_lex_right_angle s
    match kind_to_precedence kind with
    | none => pok lhs s
    | some leftPrecedence =>
      let stop : Bool :=
        if isRightAssociative leftPrecedence then decide (leftPrecedence < minPrecedence)
        else decide (leftPrecedence ≤ minPrecedence)
      if stop then pok lhs s
      else if kind = Kind.inKw ∧ s.ctx.has_in = false then pok lhs s
      else
        let s := s.bump
        pbind (prev.parse_binary_expression_or_higher leftPrecedence s) fun rhs s =>
        if kind.is_logical_operator then
          prev.parse_binary_expression_rest
            (.logical (map_logical_operator kind) lhs rhs) minPrecedence s
        else if kind.is_binary_operator then
          prev.parse_binary_expression_rest
            (.binary (map_binary_operator kind) lhs rhs) minPrecedence s
        else pok lhs s
  -- expression.rs `parse_unary_expression_or_higher`.
  parse_unary_expression_or_higher := fun s =>
    if is_update_expression s then prev.parse_update_expression s
    else prev.parse_simple_unary_expression s
  -- expression.rs `parse_simple_unary_expression`.  The `<` arm (TS type
  -- assertion / JSX) needs a token outside the modeled alphabet.
  parse_simple_unary_expression := fun s =>
    if s.curKind.is_unary_operator then prev.parse_unary_expression s
    else if s.curKind = Kind.awaitKw ∧ is_await_expression s then
      prev.parse_await_expression s
    else prev.parse_update_expression s
  -- expression.rs `parse_unary_expression`.
  parse_unary_expression := fun s =>
    let operator := map_unary_operator s.curKind
    let s := s.bump
    pbind (prev.parse_simple_unary_expression s) fun argument s =>
    pok (.unary operator argument) s
  -- expression.rs `parse_await_expression`: bump `await`, report (non-fatally)
  -- use outside an Await context, parse the operand with the Await flag set.
  parse_await_expression := fun s =>
    let s := s.bump
    let hasAwait := s.ctx.has_await
    let s := if hasAwait = false then s.pushError Diag.awaitExpressionOutsideAsync else s
    pbind (withCtx Context.awaitCtx Context.emptyCtx
        prev.parse_simple_unary_expression s) fun argument s =>
    pok (.awaitExpr argument) s
  -- expression.rs `parse_update_expression`.  `++`/`--` and JSX `<` are
  -- outside the modeled alphabet, so the prefix branch and the postfix branch
  -- (both guarded by `is_update_operator`) are omitted, leaving the
  -- lhs-expression call.
  parse_update_expression := fun s =>
    prev.parse_lhs_expression_or_higher s
  -- expression.rs `parse_lhs_expression_or_higher`: member chain, then call
  -- chain, then wrap via `map_to_chain_expression` iff the optional-chain
  -- flag was set.
  parse_lhs_expression_or_higher := fun s =>
    pbind (prev.parse_member_expression_or_higher false s) fun lm s =>
    pbind (prev.parse_call_expression_rest lm.1 lm.2 s) fun cm s =>
    if cm.2 then pok (map_to_chain_expression cm.1) s
    else pok cm.1 s
  -- expression.rs `parse_member_expression_or_higher`.
  parse_member_expression_or_higher := fun inOptionalChain s =>
    pbind (prev.parse_primary_expression s) fun lhs s =>
    prev.parse_member_expression_rest lhs inOptionalChain s
  -- expression.rs `parse_member_expression_rest`: the chain loop.  The
  -- `LAngle | ShiftLeft` speculative-instantiation arm needs tokens outside
  -- the modeled alphabet (and consequently no `TSInstantiationExpression`
  -- ever reaches the tagged-template arm's unwrapping).
  parse_member_expression_rest := fun lhs inOptionalChain s =>
    match s.curKind with
    | .lbrack =>
      -- computed member is not allowed in decorator position
      if s.ctx.has_decorator = false then
        pbind (prev.parse_computed_member_expression lhs false s) fun lhs s =>
        prev.parse_member_expression_rest lhs inOptionalChain s
      else pok (lhs, inOptionalChain) s
    | .dot =>
      pbind (parse_static_member_expression lhs false s) fun lhs s =>
      prev.parse_member_expression_rest lhs inOptionalChain s
    | .questionDot =>
      -- `?.` sets the chain flag even when the peeked token ends the chain
      match s.peekKind with
      | .lbrack =>
        if s.ctx.has_decorator = false then
          let s := s.bump
          pbind (prev.parse_computed_member_expression lhs true s) fun lhs s =>
          prev.parse_member_expression_rest lhs true s
        else pok (lhs, true) s
      | .privateIdent _ =>
        pbind (parse_static_member_expression lhs true s) fun lhs s =>
        prev.parse_member_expression_rest lhs true s
      | k =>
        if k.is_identifier_name then
          pbind (parse_static_member_expression lhs true s) fun lhs s =>
          prev.parse_member_expression_rest lhs true s
        else pok (lhs, true) s
    | .bang =>
      if s.curToken.isOnNewLine = false ∧ s.tsEnabled then
        let s := s.bump
        prev.parse_member_expression_rest (.tsNonNull lhs) inOptionalChain s
      else pok (lhs, inOptionalChain) s
    | .noSubstitutionTemplate =>
      -- kind.is_template_start_of_tagged_template()
      pbind (parse_tagged_template lhs inOptionalChain s) fun lhs s =>
      prev.parse_member_expression_rest lhs inOptionalChain s
    | _ => pok (lhs, inOptionalChain) s
  -- expression.rs `parse_primary_expression`.  Decorators `@`, functions,
  -- `async`, classes, `this`, `new`, `super`, `import`, object literals,
  -- TemplateHead and JSX need tokens outside the modeled alphabet; the
  -- fallback arm is the source's `_ => parse_identifier_expression`.
  parse_primary_expression := fun s =>
    match s.curKind with
    | .ident _ => parse_identifier_expression s
    | .num _ => parse_literal_expression s
    | .lbrack => prev.parse_array_expression s
    | .noSubstitutionTemplate =>
      pbind (parse_template_literal false s) fun _ s =>
      pok Expression.templateLiteralExpr s
    | .lparen => prev.parse_parenthesized_expression s
    | .slash => pok Expression.regExpLit s.bump
    | _ => parse_identifier_expression s
  -- expression.rs `parse_parenthesized_expression`: the sequence list is
  -- parsed with In added and Decorator removed; empty parens are a fatal
  -- error; one expression is unwrapped; `preserve_parens` wraps the result.
  parse_parenthesized_expression := fun s =>
    pbind (withCtx Context.inCtx Context.decoratorCtx
        prev.parse_sequence_expression_list s) fun expressions s =>
    match expressions with
    | [] => perr Diag.emptyParenthesizedExpression s
    | [e] => if s.preserveParens then pok (.parenthesizedExpr e) s else pok e s
    | es =>
      if s.preserveParens then pok (.parenthesizedExpr (Expression.sequence es)) s
      else pok (Expression.sequence es) s
  -- Modelled from the spec: `SequenceExpressionList::parse` (list.rs, outside
  -- src/): `(` assignment-level expressions separated by `,` `)`.
  parse_sequence_expression_list := fun s =>
    pbind (expectKind Kind.lparen s) fun _ s =>
    if s.curKind = Kind.rparen then pok [] s.bump
    else prev.parse_sequence_expression_list_rest [] s
  parse_sequence_expression_list_rest := fun acc s =>
    pbind (prev.parse_assignment_expression_or_higher s) fun e s =>
    let (more, s) := s.eat Kind.comma
    if more then prev.parse_sequence_expression_list_rest (acc ++ [e]) s
    else
      pbind (expectKind Kind.rparen s) fun _ s =>
      pok (acc ++ [e]) s
  -- expression.rs `parse_array_expression`: the element list is parsed with
  -- the In flag added.
  parse_array_expression := fun s =>
    pbind (withCtx Context.inCtx Context.emptyCtx
        prev.parse_array_expression_list s) fun elements s =>
    pok (.arrayExpr elements) s
  -- Modelled from the spec: `ArrayExpressionList::parse` (list.rs, outside
  -- src/); elisions are consumed but not represented.
  parse_array_expression_list := fun s =>
    pbind (expectKind Kind.lbrack s) fun _ s =>
    prev.parse_array_expression_list_rest [] s
  parse_array_expression_list_rest := fun acc s =>
    match s.curKind with
    | .rbrack => pok acc s.bump
    | .comma => prev.parse_array_expression_list_rest acc s.bump
    | _ =>
      pbind (prev.parse_assignment_expression_or_higher s) fun e s =>
      let (_, s) := s.eat Kind.comma
      prev.parse_array_expression_list_rest (acc ++ [e]) s
  -- expression.rs `parse_computed_member_expression`: bump `[`, parse the
  -- property with the In flag added, expect `]`.
  parse_computed_member_expression := fun lhs optional s =>
    let s := s.bump
    pbind (withCtx Context.inCtx Context.emptyCtx prev.parse_expr s) fun property s =>
    pbind (expectKind Kind.rbrack s) fun _ s =>
    pok (.computedMember lhs property optional) s
  -- expression.rs `parse_call_expression_rest`: the call-chain loop.  The
  -- speculative type-argument parse after `?.` fails on every modeled stream
  -- (no `<` token), so `type_arguments` stays `None` and the
  -- `TSInstantiationExpression` unwrap before the argument list is
  -- unreachable.
  parse_call_expression_rest := fun lhs inOptionalChain s =>
    pbind (prev.parse_member_expression_rest lhs inOptionalChain s) fun lm s =>
    let lhs := lm.1
    let inOptionalChain := lm.2
    let (optionalCall, s) := s.eat Kind.questionDot
    let inOptionalChain := if optionalCall then true else inOptionalChain
    let (typeArguments, s) :=
      if optionalCall then try_parse_ts_type_arguments s else (none, s)
    if optionalCall ∧ s.curKind.is_template_start_of_tagged_template then
      pbind (parse_tagged_template lhs optionalCall s) fun lhs s =>
      prev.parse_call_expression_rest lhs inOptionalChain s
    else if typeArguments.isSome ∨ s.curKind = Kind.lparen then
      pbind (prev.parse_call_arguments lhs optionalCall s) fun lhs s =>
      prev.parse_call_expression_rest lhs inOptionalChain s
    else pok (lhs, inOptionalChain) s
  -- expression.rs `parse_call_arguments`: the argument list is parsed with In
  -- added and Decorator removed, then the call node is built.
  parse_call_arguments := fun lhs optionalCall s =>
    pbind (withCtx Context.inCtx Context.decoratorCtx
        prev.parse_call_arguments_list s) fun callArguments s =>
    pok (.call lhs callArguments optionalCall) s
  -- Modelled from the spec: `CallArguments::parse` (list.rs, outside src/):
  -- `(` assignment-level expressions separated by `,`, optional trailing
  -- comma, `)` (spread arguments need a token outside the modeled alphabet).
  parse_call_arguments_list := fun s =>
    pbind (expectKind Kind.lparen s) fun _ s =>
    if s.curKind = Kind.rparen then pok [] s.bump
    else prev.parse_call_arguments_list_rest [] s
  parse_call_arguments_list_rest := fun acc s =>
    pbind (prev.parse_assignment_expression_or_higher s) fun e s =>
    let (more, s) := s.eat Kind.comma
    if more then
      if s.curKind = Kind.rparen then pok (acc ++ [e]) s.bump
      else prev.parse_call_arguments_list_rest (acc ++ [e]) s
    else
      pbind (expectKind Kind.rparen s) fun _ s =>
      pok (acc ++ [e]) s
  -- declaration.rs `parse_let`: dispatch on the token after `let`.
  parse_let := fun stmtCtx s =>
    let peeked := s.peekKind
    -- let = foo, let instanceof x, let + 1
    if peeked.is_assignment_operator ∨ peeked.is_binary_operator then
      pbind (prev.parse_assignment_expression_or_higher s) fun expr s =>
      parse_expression_statement expr s
    -- let.a = 1, let()[a] = 1
    else if peeked = Kind.dot ∨ peeked = Kind.lparen then
      pbind (prev.parse_expr s) fun expr s =>
      pok (.expressionStatement expr) s
    -- single statement let declaration: while (0) let
    else if (stmtCtx.is_single_statement ∧ peeked ≠ Kind.lbrack) ∨ peeked = Kind.semicolon then
      pbind (parse_identifier_expression s) fun expr s =>
      parse_expression_statement expr s
    else
      prev.parse_variable_statement stmtCtx s
  -- Modelled from the spec: `parse_variable_statement` (statement.rs, outside
  -- src/): a standalone declaration statement — parent Statement, no
  -- modifiers.
  parse_variable_statement := fun _stmtCtx s =>
    pbind (prev.parse_variable_declaration ⟨.statement⟩ [] s) fun decl s =>
    pok (.declarationStatement decl) s
  -- declaration.rs `parse_variable_declaration`: kind keyword, declarator
  -- list, ASI only for Statement/Clause parents, then the modifier check.
  parse_variable_declaration := fun declCtx modifiers s =>
    let kindOpt : Option VariableDeclarationKind :=
      match s.curKind with
      | .varKw => some .varKind
      | .constKw => some .constKind
      | .letKw => some .letKind
      | _ => none
    match kindOpt with
    | none => perr (.unexpected s.curKind) s
    | some kind =>
      let s := s.bump
      pbind (prev.parse_variable_declaration_list declCtx kind [] s) fun declarations s =>
      pbind
        (if declCtx.parent = .statement ∨ declCtx.parent = .clause then asi s
         else pok () s) fun _ s =>
      let s := modifiers.foldl
        (fun s m =>
          if m ≠ ModifierKind.declareModifierKind then s.pushError Diag.modifierCannotBeUsedHere
          else s) s
      pok { kind := kind, declarations := declarations,
            declareModifier := modifiersContainDeclare modifiers } s
  -- declaration.rs `parse_variable_declaration`'s declarator loop.
  parse_variable_declaration_list := fun declCtx kind acc s =>
    pbind (prev.parse_variable_declarator declCtx kind s) fun d s =>
    let (more, s) := s.eat Kind.comma
    if more then prev.parse_variable_declaration_list declCtx kind (acc ++ [d]) s
    else pok (acc ++ [d]) s
  -- declaration.rs `parse_variable_declarator`: binding pattern; in TS mode
  -- the definite `!`, the (invalid but parsed) `?`, and a type annotation;
  -- the `=` initializer; then the missing-initializer validation for
  -- top-level statements.
  parse_variable_declarator := fun declCtx kind s =>
    pbind (parse_binding_pattern_kind s) fun bindingKind s =>
    pbind
      (if s.tsEnabled then
        let (definite, s) :=
          if bindingKind.is_binding_identifier ∧ s.curKind = Kind.bang ∧
             s.curToken.isOnNewLine = false then
            (true, (s.eat Kind.bang).2)
          else (false, s)
        let (optional, s) := s.eat Kind.question
        pbind (parse_ts_type_annot s) fun hasAnnotation s =>
        pok (({ kind := bindingKind, hasTypeAnnot := hasAnnotation,
                optional := optional } : BindingPattern), definite) s
      else
        pok (({ kind := bindingKind } : BindingPattern), false) s)
      fun idDef s =>
    let id := idDef.1
    let definite := idDef.2
    let (ateEq, s) := s.eat Kind.eq
    pbind
      (if ateEq then
        pbind (prev.parse_assignment_expression_or_higher s) fun e s => pok (some e) s
      else pok (none : Option Expression) s)
      fun init s =>
    let s :=
      if init.isNone ∧ declCtx.parent = .statement then
        -- the grammar forbids `let []`, `let {}` without initializer, and a
        -- `const` lexical binding without initializer outside ambient contexts
        if id.kind.is_binding_identifier = false then
          s.pushError Diag.invalidDestructuringDeclaration
        else if kind = .constKind ∧ s.ctx.has_ambient = false then
          s.pushError Diag.missingInitializerInConst
        else s
      else s
    pok { kind := kind, id := id, init := init, definite := definite } s
  -- declaration.rs `parse_using_declaration`: optional `await`, mandatory
  -- `using`, the `[no LineTerminator here]` check on the token after `using`,
  -- the `[lookahead ≠ await]` check, then the declarator loop.
  parse_using_declaration := fun statementCtx s =>
    let (isAwait, s) := s.eat Kind.awaitKw
    pbind (expectKind Kind.usingKw s) fun _ s =>
    let s :=
      if s.curToken.isOnNewLine then s.pushError Diag.lineTerminatorBeforeUsing else s
    let s :=
      if s.curKind = Kind.awaitKw then
        ((s.pushError Diag.awaitInUsingDeclaration).eat Kind.awaitKw).2
      else s
    pbind (prev.parse_using_declaration_list statementCtx [] s) fun declarations s =>
    pok { isAwait := isAwait, declarations := declarations } s
  -- declaration.rs `parse_using_declaration`'s declarator loop: each
  -- declarator is parsed with parent Statement and kind Var, non-identifier
  -- bindings and missing initializers (outside `for` heads) are reported, and
  -- the declarator is kept either way.
  parse_using_declaration_list := fun statementCtx acc s =>
    pbind (prev.parse_variable_declarator ⟨.statement⟩ .varKind s) fun declaration s =>
    let s :=
      if declaration.id.kind.is_binding_identifier then s
      else s.pushError Diag.invalidIdentifierInUsingDeclaration
    let s :=
      if declaration.init.isNone ∧ statementCtx ≠ .forCtx then
        s.pushError Diag.missingInitializerInUsingDeclaration
      else s
    let (more, s) := s.eat Kind.comma
    if more then prev.parse_using_declaration_list statementCtx (acc ++ [declaration]) s
    else pok (acc ++ [declaration]) s
  -- declaration.rs `parse_using`: the statement wrapper applies ASI.
  parse_using := fun s =>
    pbind (prev.parse_using_declaration .statementList s) fun usingDecl s =>
    pbind (asi s) fun _ s =>
    pok (.usingStatement usingDecl) s

/-- The family at fuel `n`. -/
def fam : Nat → Fam
  | 0 => famZero
  | n + 1 => famStep (fam n)

/-- `parse_expr` at fuel `n`. -/
def parse_expr (n : Nat) : PState → PResult Expression :=
  (fam n).parse_expr

/-- `parse_assignment_expression_or_higher` at fuel `n`. -/
def parse_assignment_expression_or_higher (n : Nat) : PState → PResult Expression :=
  (fam n).parse_assignment_expression_or_higher

/-- `parse_binary_expression_or_higher` at fuel `n`. -/
def parse_binary_expression_or_higher (n : Nat) : Nat → PState → PResult Expression :=
  (fam n).parse_binary_expression_or_higher

/-- `parse_binary_expression_rest` at fuel `n`. -/
def parse_binary_expression_rest (n : Nat) :
    Expression → Nat → PState → PResult Expression :=
  (fam n).parse_binary_expression_rest

/-- `parse_simple_unary_expression` at fuel `n`. -/
def parse_simple_unary_expression (n : Nat) : PState → PResult Expression :=
  (fam n).parse_simple_unary_expression

/-- `parse_await_expression` at fuel `n`. -/
def parse_await_expression (n : Nat) : PState → PResult Expression :=
  (fam n).parse_await_expression

/-- `parse_update_expression` at fuel `n`. -/
def parse_update_expression (n : Nat) : PState → PResult Expression :=
  (fam n).parse_update_expression

/-- `parse_lhs_expression_or_higher` at fuel `n`. -/
def parse_lhs_expression_or_higher (n : Nat) : PState → PResult Expression :=
  (fam n).parse_lhs_expression_or_higher

/-- `parse_member_expression_rest` at fuel `n`. -/
def parse_member_expression_rest (n : Nat) :
    Expression → Bool → PState → PResult (Expression × Bool) :=
  (fam n).parse_member_expression_rest

/-- `parse_let` at fuel `n`. -/
def parse_let (n : Nat) : StatementContext → PState → PResult Statement :=
  (fam n).parse_let

/-- `parse_variable_declaration` at fuel `n`. -/
def parse_variable_declaration (n : Nat) :
    VariableDeclarationContext → Modifiers → PState → PResult VariableDeclaration :=
  (fam n).parse_variable_declaration

/-- `parse_variable_declarator` at fuel `n`. -/
def parse_variable_declarator (n : Nat) :
    VariableDeclarationContext → VariableDeclarationKind → PState → PResult VariableDeclarator :=
  (fam n).parse_variable_declarator

/-- `parse_using_declaration` at fuel `n`. -/
def parse_using_declaration (n : Nat) : StatementContext → PState → PResult UsingDeclaration :=
  (fam n).parse_using_declaration

/-- `parse_using_declaration_list` at fuel `n`. -/
def parse_using_declaration_list (n : Nat) :
    StatementContext → List VariableDeclarator → PState → PResult (List VariableDeclarator) :=
  (fam n).parse_using_declaration_list

/-- A token with no preceding line break. -/
def tk (k : Kind) : Token := { kind := k }

/-- A token preceded by a line break. -/
def tkNL (k : Kind) : Token := { kind := k, isOnNewLine := true }

/-- An identifier token. -/
def ide (n : String) : Token := { kind := .ident n }

/-- A starting state over a token list, everything else defaulted. -/
def stOf (ts : List Token) : PState := { tokens := ts }

/-- The diagnostic sink is append-only: every diagnostic recorded in `s` is
still recorded in `t`. -/
def ErrsLe (s t : PState) : Prop := ∀ d, d ∈ s.errors → d ∈ t.errors

/-- The two per-declarator validations of `parse_using_declaration`, phrased
against a diagnostic sink: a non-identifier binding has been reported, and a
missing initializer has been reported unless the statement context is a
`for`-loop head. -/
def UsingDeclaratorChecked (c : StatementContext) (d : VariableDeclarator)
    (errs : List Diag) : Prop :=
  (d.id.kind.is_binding_identifier = false →
    Diag.invalidIdentifierInUsingDeclaration ∈ errs) ∧
  (d.init.isNone = true → c ≠ StatementContext.forCtx →
    Diag.missingInitializerInUsingDeclaration ∈ errs)

/-- All fields of a family preserve previously recorded diagnostics. -/
structure FamEP (F : Fam) : Prop where
  parse_expr : ∀ s, ErrsLe s (F.parse_expr s).2
  parse_sequence_expression : ∀ es s, ErrsLe s (F.parse_sequence_expression es s).2
  parse_assignment_expression_or_higher :
    ∀ s, ErrsLe s (F.parse_assignment_expression_or_higher s).2
  try_parse_parenthesized_arrow_function_expression :
    ∀ s, ErrsLe s (F.try_parse_parenthesized_arrow_function_expression s).2
  parse_simple_arrow_function_expression :
    ∀ e s, ErrsLe s (F.parse_simple_arrow_function_expression e s).2
  parse_assignment_expression_recursive :
    ∀ e s, ErrsLe s (F.parse_assignment_expression_recursive e s).2
  parse_conditional_expression_rest :
    ∀ e s, ErrsLe s (F.parse_conditional_expression_rest e s).2
  parse_binary_expression_or_higher :
    ∀ p s, ErrsLe s (F.parse_binary_expression_or_higher p s).2
  parse_binary_expression_rest :
    ∀ e p s, ErrsLe s (F.parse_binary_expression_rest e p s).2
  parse_unary_expression_or_higher :
    ∀ s, ErrsLe s (F.parse_unary_expression_or_higher s).2
  parse_simple_unary_expression : ∀ s, ErrsLe s (F.parse_simple_unary_expression s).2
  parse_unary_expression : ∀ s, ErrsLe s (F.parse_unary_expression s).2
  parse_await_expression : ∀ s, ErrsLe s (F.parse_await_expression s).2
  parse_update_expression : ∀ s, ErrsLe s (F.parse_update_expression s).2
  parse_lhs_expression_or_higher : ∀ s, ErrsLe s (F.parse_lhs_expression_or_higher s).2
  parse_member_expression_or_higher :
    ∀ b s, ErrsLe s (F.parse_member_expression_or_higher b s).2
  parse_member_expression_rest :
    ∀ e b s, ErrsLe s (F.parse_member_expression_rest e b s).2
  parse_primary_expression : ∀ s, ErrsLe s (F.parse_primary_expression s).2
  parse_parenthesized_expression : ∀ s, ErrsLe s (F.parse_parenthesized_expression s).2
  parse_sequence_expression_list : ∀ s, ErrsLe s (F.parse_sequence_expression_list s).2
  parse_sequence_expression_list_rest :
    ∀ es s, ErrsLe s (F.parse_sequence_expression_list_rest es s).2
  parse_array_expression : ∀ s, ErrsLe s (F.parse_array_expression s).2
  parse_array_expression_list : ∀ s, ErrsLe s (F.parse_array_expression_list s).2
  parse_array_expression_list_rest :
    ∀ es s, ErrsLe s (F.parse_array_expression_list_rest es s).2
  parse_computed_member_expression :
    ∀ e b s, ErrsLe s (F.parse_computed_member_expression e b s).2
  parse_call_expression_rest : ∀ e b s, ErrsLe s (F.parse_call_expression_rest e b s).2
  parse_call_arguments : ∀ e b s, ErrsLe s (F.parse_call_arguments e b s).2
  parse_call_arguments_list : ∀ s, ErrsLe s (F.parse_call_arguments_list s).2
  parse_call_arguments_list_rest :
    ∀ es s, ErrsLe s (F.parse_call_arguments_list_rest es s).2
  parse_let : ∀ c s, ErrsLe s (F.parse_let c s).2
  parse_variable_statement : ∀ c s, ErrsLe s (F.parse_variable_statement c s).2
  parse_variable_declaration :
    ∀ c m s, ErrsLe s (F.parse_variable_declaration c m s).2
  parse_variable_declaration_list :
    ∀ c k ds s, ErrsLe s (F.parse_variable_declaration_list c k ds s).2
  parse_variable_declarator :
    ∀ c k s, ErrsLe s (F.parse_variable_declarator c k s).2
  parse_using_declaration : ∀ c s, ErrsLe s (F.parse_using_declaration c s).2
  parse_using_declaration_list :
    ∀ c ds s, ErrsLe s (F.parse_using_declaration_list c ds s).2
  parse_using : ∀ s, ErrsLe s (F.parse_using s).2

theorem errsLe_refl (s : PState) : ErrsLe s s := fun _ h => h

theorem errsLe_trans {s t u : PState} (h1 : ErrsLe s t) (h2 : ErrsLe t u) : ErrsLe s u :=
  fun d h => h2 d (h1 d h)

theorem errsLe_pok {α : Type} (a : α) (s : PState) : ErrsLe s (pok a s).2 :=
  errsLe_refl s

theorem errsLe_perr {α : Type} (d : Diag) (s : PState) :
    ErrsLe s ((perr d s : PResult α)).2 :=
  errsLe_refl s

theorem errsLe_bump (s : PState) : ErrsLe s s.bump := fun _ h => h

theorem errsLe_push (s : PState) (d : Diag) : ErrsLe s (s.pushError d) :=
  fun _ he => List.mem_append_left _ he

theorem errsLe_eat (s : PState) (k : Kind) : ErrsLe s (s.eat k).2 := by
  unfold PState.eat
  split <;> exact fun _ h => h

theorem errsLe_pbind {α β : Type} {x : PResult α} {f : α → PState → PResult β} {s : PState}
    (h1 : ErrsLe s x.2) (h2 : ∀ a t, ErrsLe t (f a t).2) : ErrsLe s (pbind x f).2 := by
  rcases x with ⟨r, t⟩
  cases r with
  | error d => exact h1
  | ok a => exact errsLe_trans h1 (h2 a t)

theorem errsLe_expect (k : Kind) (s : PState) : ErrsLe s (expectKind k s).2 := by
  unfold expectKind
  split <;> exact fun _ h => h

theorem errsLe_withCtx {α : Type} {f : PState → PResult α} (add remove : Context)
    (hf : ∀ t, ErrsLe t (f t).2) (s : PState) : ErrsLe s (withCtx add remove f s).2 :=
  fun d hd => hf (enterCtx add remove s) d hd

theorem errsLe_ite_push (s : PState) (c : Prop) [Decidable c] (d : Diag) :
    ErrsLe s (if c then s.pushError d else s) := by
  split
  · exact errsLe_push s d
  · exact errsLe_refl s

theorem errsLe_check_identifier (name : String) (s : PState) :
    ErrsLe s (check_identifier name s) := by
  unfold check_identifier
  exact errsLe_trans (errsLe_ite_push s _ _) (errsLe_ite_push _ _ _)

theorem errsLe_parse_identifier_reference (s : PState) :
    ErrsLe s (parse_identifier_reference s).2 := by
  unfold parse_identifier_reference
  split
  · exact errsLe_refl s
  · exact errsLe_trans (errsLe_bump s) (errsLe_check_identifier _ _)

theorem errsLe_parse_identifier_expression (s : PState) :
    ErrsLe s (parse_identifier_expression s).2 :=
  errsLe_pbind (errsLe_parse_identifier_reference s) fun a t => errsLe_pok a t

theorem errsLe_parse_identifier_name (s : PState) :
    ErrsLe s (parse_identifier_name s).2 := by
  unfold parse_identifier_name
  split <;> exact fun _ h => h

theorem errsLe_parse_literal_expression (s : PState) :
    ErrsLe s (parse_literal_expression s).2 := by
  unfold parse_literal_expression
  split <;> exact fun _ h => h

theorem errsLe_parse_template_literal (tagged : Bool) (s : PState) :
    ErrsLe s (parse_template_literal tagged s).2 := by
  unfold parse_template_literal
  split <;> exact fun _ h => h

theorem errsLe_parse_tagged_template (lhs : Expression) (b : Bool) (s : PState) :
    ErrsLe s (parse_tagged_template lhs b s).2 := by
  refine errsLe_pbind (errsLe_parse_template_literal true s) fun _ t => ?_
  split
  · exact errsLe_trans (errsLe_push t _) (errsLe_pok _ _)
  · exact errsLe_pok _ _

theorem errsLe_parse_static_member_expression (lhs : Expression) (b : Bool) (s : PState) :
    ErrsLe s (parse_static_member_expression lhs b s).2 := by
  refine errsLe_trans (errsLe_bump s) ?_
  simp only [parse_static_member_expression]
  split
  · exact fun _ h => h
  · exact errsLe_pbind (errsLe_parse_identifier_name _) fun _ _ => errsLe_pok _ _

theorem errsLe_asi (s : PState) : ErrsLe s (asi s).2 := by
  unfold asi
  split
  · exact errsLe_bump s
  · split <;> exact fun _ h => h

theorem errsLe_parse_expression_statement (e : Expression) (s : PState) :
    ErrsLe s (parse_expression_statement e s).2 :=
  errsLe_pbind (errsLe_asi s) fun _ _ => errsLe_pok _ _

theorem errsLe_parse_binding_pattern_kind (s : PState) :
    ErrsLe s (parse_binding_pattern_kind s).2 := by
  unfold parse_binding_pattern_kind
  split
  · split <;> exact fun _ h => h
  · split <;> exact fun _ h => h

theorem errsLe_parse_ts_type_annot (s : PState) :
    ErrsLe s (parse_ts_type_annot s).2 := by
  unfold parse_ts_type_annot
  split
  · split <;> exact fun _ h => h
  · exact fun _ h => h

theorem errsLe_assignmentTargetCover (e : Expression) (s : PState) :
    ErrsLe s (assignmentTargetCover e s).2 := by
  unfold assignmentTargetCover
  split <;> first
    | exact fun _ h => h
    | exact errsLe_trans (errsLe_push s _) (errsLe_pok _ _)

theorem errsLe_foldl_push (ms : Modifiers) (s : PState) :
    ErrsLe s (ms.foldl
      (fun s m =>
        if m ≠ ModifierKind.declareModifierKind then s.pushError Diag.modifierCannotBeUsedHere
        else s) s) := by
  induction ms generalizing s with
  | nil => exact errsLe_refl s
  | cons m ms ih =>
    simp only [List.foldl_cons]
    refine errsLe_trans ?_ (ih _)
    split
    · exact errsLe_push _ _
    · exact errsLe_refl _

theorem famEP_step (F : Fam) (h : FamEP F) : FamEP (famStep F) where
  parse_expr := by
    intro s
    simp only [famStep]
    refine errsLe_pbind (errsLe_trans ?_ (h.parse_assignment_expression_or_higher _)) ?_
    · split <;> exact fun _ hh => hh
    · intro lhs t
      split
      · exact errsLe_pok _ _
      · refine errsLe_pbind (h.parse_sequence_expression _ _) fun _ u => ?_
        split <;> exact fun _ hh => hh
  parse_sequence_expression := by
    intro es s
    simp only [famStep]
    split
    · exact errsLe_pbind
        (errsLe_trans (errsLe_eat s Kind.comma) (h.parse_assignment_expression_or_higher _))
        fun _ _ => h.parse_sequence_expression _ _
    · exact errsLe_trans (errsLe_eat s Kind.comma) (errsLe_pok _ _)
  parse_assignment_expression_or_higher := by
    intro s
    simp only [famStep]
    refine errsLe_pbind (h.try_parse_parenthesized_arrow_function_expression s) ?_
    intro opt t
    cases opt with
    | some e => exact errsLe_pok _ _
    | none =>
      refine errsLe_pbind (h.parse_binary_expression_or_higher _ t) ?_
      intro lhs u
      split
      · exact h.parse_simple_arrow_function_expression _ _
      · split
        · exact h.parse_assignment_expression_recursive _ _
        · exact h.parse_conditional_expression_rest _ _
  try_parse_parenthesized_arrow_function_expression := by
    intro s
    simp only [famStep]
    split
    · exact errsLe_pok _ _
    · split
      · exact errsLe_pok _ _
      · refine errsLe_pbind
          (errsLe_trans (?_ : ErrsLe s _) (h.parse_assignment_expression_or_higher _))
          fun _ _ => errsLe_pok _ _
        exact fun _ hh => hh
  parse_simple_arrow_function_expression := by
    intro e s
    simp only [famStep]
    refine errsLe_pbind (errsLe_expect _ _) fun _ t => ?_
    exact errsLe_pbind (h.parse_assignment_expression_or_higher t) fun _ _ => errsLe_pok _ _
  parse_assignment_expression_recursive := by
    intro e s
    simp only [famStep]
    refine errsLe_pbind (errsLe_assignmentTargetCover e s) fun _ t => ?_
    exact errsLe_pbind (errsLe_trans (errsLe_bump t) (h.parse_assignment_expression_or_higher _))
      fun _ _ => errsLe_pok _ _
  parse_conditional_expression_rest := by
    intro e s
    simp only [famStep]
    split
    · exact errsLe_trans (errsLe_eat s _) (errsLe_pok _ _)
    · refine errsLe_pbind
        (errsLe_trans (errsLe_eat s _)
          (errsLe_withCtx _ _ (fun t => h.parse_assignment_expression_or_higher t) _)) ?_
      intro c t
      refine errsLe_pbind (errsLe_expect _ t) fun _ u => ?_
      exact errsLe_pbind (h.parse_assignment_expression_or_higher u) fun _ _ => errsLe_pok _ _
  parse_binary_expression_or_higher := by
    intro p s
    simp only [famStep]
    split
    · split
      · refine errsLe_pbind (errsLe_trans (errsLe_bump s) (errsLe_expect _ _)) fun _ t => ?_
        exact errsLe_pbind (h.parse_unary_expression_or_higher t)
          fun _ _ => h.parse_binary_expression_rest _ _ _
      · exact errsLe_pbind (h.parse_unary_expression_or_higher s)
          fun _ _ => h.parse_binary_expression_rest _ _ _
    · exact errsLe_pbind (h.parse_unary_expression_or_higher s)
        fun _ _ => h.parse_binary_expression_rest _ _ _
  parse_binary_expression_rest := by
    intro e p s
    simp only [famStep]
    split
    · exact errsLe_pok _ _
    · split <;> split
      · exact errsLe_pok _ _
      · split
        · exact errsLe_pok _ _
        · refine errsLe_pbind
            (errsLe_trans (errsLe_bump s) (h.parse_binary_expression_or_higher _ _)) ?_
          intro rhs t
          split
          · exact h.parse_binary_expression_rest _ _ _
          · split
            · exact h.parse_binary_expression_rest _ _ _
            · exact errsLe_pok _ _
      · exact errsLe_pok _ _
      · split
        · exact errsLe_pok _ _
        · refine errsLe_pbind
            (errsLe_trans (errsLe_bump s) (h.parse_binary_expression_or_higher _ _)) ?_
          intro rhs t
          split
          · exact h.parse_binary_expression_rest _ _ _
          · split
            · exact h.parse_binary_expression_rest _ _ _
            · exact errsLe_pok _ _
  parse_unary_expression_or_higher := by
    intro s
    simp only [famStep]
    split
    · exact h.parse_update_expression s
    · exact h.parse_simple_unary_expression s
  parse_simple_unary_expression := by
    intro s
    simp only [famStep]
    split
    · exact h.parse_unary_expression s
    · split
      · exact h.parse_await_expression s
      · exact h.parse_update_expression s
  parse_unary_expression := by
    intro s
    simp only [famStep]
    exact errsLe_pbind (errsLe_trans (errsLe_bump s) (h.parse_simple_unary_expression _))
      fun _ _ => errsLe_pok _ _
  parse_await_expression := by
    intro s
    simp only [famStep]
    exact errsLe_pbind
      (errsLe_trans (errsLe_trans (errsLe_bump s) (errsLe_ite_push _ _ _))
        (errsLe_withCtx _ _ (fun t => h.parse_simple_unary_expression t) _))
      fun _ _ => errsLe_pok _ _
  parse_update_expression := by
    intro s
    simp only [famStep]
    exact h.parse_lhs_expression_or_higher s
  parse_lhs_expression_or_higher := by
    intro s
    simp only [famStep]
    refine errsLe_pbind (h.parse_member_expression_or_higher _ _) fun lm t => ?_
    refine errsLe_pbind (h.parse_call_expression_rest _ _ _) fun cm u => ?_
    split <;> exact errsLe_pok _ _
  parse_member_expression_or_higher := by
    intro b s
    simp only [famStep]
    exact errsLe_pbind (h.parse_primary_expression s)
      fun _ _ => h.parse_member_expression_rest _ _ _
  parse_member_expression_rest := by
    intro e b s
    simp only [famStep]
    split
    · split
      · exact errsLe_pbind (h.parse_computed_member_expression _ _ _)
          fun _ _ => h.parse_member_expression_rest _ _ _
      · exact errsLe_pok _ _
    · exact errsLe_pbind (errsLe_parse_static_member_expression _ _ _)
        fun _ _ => h.parse_member_expression_rest _ _ _
    · split
      · split
        · exact errsLe_pbind (errsLe_trans (errsLe_bump s) (h.parse_computed_member_expression _ _ _))
            fun _ _ => h.parse_member_expression_rest _ _ _
        · exact errsLe_pok _ _
      · exact errsLe_pbind (errsLe_parse_static_member_expression _ _ _)
          fun _ _ => h.parse_member_expression_rest _ _ _
      · split
        · exact errsLe_pbind (errsLe_parse_static_member_expression _ _ _)
            fun _ _ => h.parse_member_expression_rest _ _ _
        · exact errsLe_pok _ _
    · split
      · exact errsLe_trans (errsLe_bump s) (h.parse_member_expression_rest _ _ _)
      · exact errsLe_pok _ _
    · exact errsLe_pbind (errsLe_parse_tagged_template _ _ _)
        fun _ _ => h.parse_member_expression_rest _ _ _
    · exact errsLe_pok _ _
  parse_primary_expression := by
    intro s
    simp only [famStep]
    split
    · exact errsLe_parse_identifier_expression _
    · exact errsLe_parse_literal_expression _
    · exact h.parse_array_expression _
    · exact errsLe_pbind (errsLe_parse_template_literal _ _) fun _ _ => errsLe_pok _ _
    · exact h.parse_parenthesized_expression _
    · exact errsLe_bump s
    · exact errsLe_parse_identifier_expression _
  parse_parenthesized_expression := by
    intro s
    simp only [famStep]
    refine errsLe_pbind
      (errsLe_withCtx _ _ (fun t => h.parse_sequence_expression_list t) s) ?_
    intro es t
    split
    · exact errsLe_perr _ _
    · split <;> exact errsLe_pok _ _
    · split <;> exact errsLe_pok _ _
  parse_sequence_expression_list := by
    intro s
    simp only [famStep]
    refine errsLe_pbind (errsLe_expect _ _) fun _ t => ?_
    split
    · exact errsLe_bump t
    · exact h.parse_sequence_expression_list_rest _ _
  parse_sequence_expression_list_rest := by
    intro es s
    simp only [famStep]
    refine errsLe_pbind (h.parse_assignment_expression_or_higher s) fun e t => ?_
    split
    · exact errsLe_trans (errsLe_eat t _) (h.parse_sequence_expression_list_rest _ _)
    · exact errsLe_trans (errsLe_eat t _)
        (errsLe_pbind (errsLe_expect _ _) fun _ _ => errsLe_pok _ _)
  parse_array_expression := by
    intro s
    simp only [famStep]
    exact errsLe_pbind (errsLe_withCtx _ _ (fun t => h.parse_array_expression_list t) s)
      fun _ _ => errsLe_pok _ _
  parse_array_expression_list := by
    intro s
    simp only [famStep]
    exact errsLe_pbind (errsLe_expect _ _) fun _ t => h.parse_array_expression_list_rest _ _
  parse_array_expression_list_rest := by
    intro es s
    simp only [famStep]
    split
    · exact errsLe_bump s
    · exact errsLe_trans (errsLe_bump s) (h.parse_array_expression_list_rest _ _)
    · refine errsLe_pbind (h.parse_assignment_expression_or_higher s) fun e t => ?_
      exact errsLe_trans (errsLe_eat t _) (h.parse_array_expression_list_rest _ _)
  parse_computed_member_expression := by
    intro e b s
    simp only [famStep]
    refine errsLe_pbind
      (errsLe_trans (errsLe_bump s) (errsLe_withCtx _ _ (fun t => h.parse_expr t) _))
      fun _ t => ?_
    exact errsLe_pbind (errsLe_expect _ _) fun _ _ => errsLe_pok _ _
  parse_call_expression_rest := by
    intro e b s
    simp only [famStep, try_parse_ts_type_arguments, ite_self]
    refine errsLe_pbind (h.parse_member_expression_rest _ _ _) fun lm t => ?_
    split
    · exact errsLe_pbind (errsLe_trans (errsLe_eat t _) (errsLe_parse_tagged_template _ _ _))
        fun _ _ => h.parse_call_expression_rest _ _ _
    · split
      · exact errsLe_pbind (errsLe_trans (errsLe_eat t _) (h.parse_call_arguments _ _ _))
          fun _ _ => h.parse_call_expression_rest _ _ _
      · exact errsLe_trans (errsLe_eat t _) (errsLe_pok _ _)
  parse_call_arguments := by
    intro e b s
    simp only [famStep]
    exact errsLe_pbind (errsLe_withCtx _ _ (fun t => h.parse_call_arguments_list t) s)
      fun _ _ => errsLe_pok _ _
  parse_call_arguments_list := by
    intro s
    simp only [famStep]
    refine errsLe_pbind (errsLe_expect _ _) fun _ t => ?_
    split
    · exact errsLe_bump t
    · exact h.parse_call_arguments_list_rest _ _
  parse_call_arguments_list_rest := by
    intro es s
    simp only [famStep]
    refine errsLe_pbind (h.parse_assignment_expression_or_higher s) fun e t => ?_
    split
    · split
      · exact errsLe_trans (errsLe_eat t _) (errsLe_bump _)
      · exact errsLe_trans (errsLe_eat t _) (h.parse_call_arguments_list_rest _ _)
    · exact errsLe_trans (errsLe_eat t _)
        (errsLe_pbind (errsLe_expect _ _) fun _ _ => errsLe_pok _ _)
  parse_let := by
    intro c s
    simp only [famStep]
    split
    · exact errsLe_pbind (h.parse_assignment_expression_or_higher s)
        fun _ _ => errsLe_parse_expression_statement _ _
    · split
      · exact errsLe_pbind (h.parse_expr s) fun _ _ => errsLe_pok _ _
      · split
        · exact errsLe_pbind (errsLe_parse_identifier_expression s)
            fun _ _ => errsLe_parse_expression_statement _ _
        · exact h.parse_variable_statement _ _
  parse_variable_statement := by
    intro c s
    simp only [famStep]
    exact errsLe_pbind (h.parse_variable_declaration _ _ _) fun _ _ => errsLe_pok _ _
  parse_variable_declaration := by
    intro c m s
    simp only [famStep]
    split
    · exact errsLe_perr _ _
    · refine errsLe_pbind
        (errsLe_trans (errsLe_bump s) (h.parse_variable_declaration_list _ _ _ _)) ?_
      intro ds t
      refine errsLe_pbind ?_ ?_
      · split
        · exact errsLe_asi t
        · exact errsLe_pok _ _
      · intro _ u
        exact errsLe_trans (errsLe_foldl_push _ _) (errsLe_pok _ _)
  parse_variable_declaration_list := by
    intro c k ds s
    simp only [famStep]
    refine errsLe_pbind (h.parse_variable_declarator _ _ _) fun d t => ?_
    split
    · exact errsLe_trans (errsLe_eat t _) (h.parse_variable_declaration_list _ _ _ _)
    · exact errsLe_trans (errsLe_eat t _) (errsLe_pok _ _)
  parse_variable_declarator := by
    intro c k s
    simp only [famStep]
    refine errsLe_pbind (errsLe_parse_binding_pattern_kind s) fun bk t => ?_
    refine errsLe_pbind ?_ ?_
    · split
      · refine errsLe_pbind
          (errsLe_trans (errsLe_trans (?_ : ErrsLe t _) (errsLe_eat _ Kind.question))
            (errsLe_parse_ts_type_annot _))
          fun _ _ => errsLe_pok _ _
        split
        · exact errsLe_eat t Kind.bang
        · exact errsLe_refl t
      · exact errsLe_pok _ _
    · intro idDef u
      refine errsLe_pbind ?_ ?_
      · split
        · exact errsLe_pbind
            (errsLe_trans (errsLe_eat u Kind.eq) (h.parse_assignment_expression_or_higher _))
            fun _ _ => errsLe_pok _ _
        · exact errsLe_trans (errsLe_eat u Kind.eq) (errsLe_pok _ _)
      · intro init v
        refine errsLe_trans ?_ (errsLe_pok _ _)
        split
        · split
          · exact errsLe_push v _
          · split
            · exact errsLe_push v _
            · exact errsLe_refl v
        · exact errsLe_refl v
  parse_using_declaration := by
    intro c s
    simp only [famStep]
    refine errsLe_pbind (errsLe_trans (errsLe_eat s Kind.awaitKw) (errsLe_expect _ _)) ?_
    intro _ t
    have h2 : ErrsLe t
        (if t.curToken.isOnNewLine = true then t.pushError Diag.lineTerminatorBeforeUsing
         else t) :=
      errsLe_ite_push t _ _
    have h3 : ∀ u : PState, ErrsLe u
        (if u.curKind = Kind.awaitKw then
          ((u.pushError Diag.awaitInUsingDeclaration).eat Kind.awaitKw).2
         else u) := by
      intro u
      split
      · exact errsLe_trans (errsLe_push _ _) (errsLe_eat _ _)
      · exact errsLe_refl _
    exact errsLe_pbind (errsLe_trans (errsLe_trans h2 (h3 _))
        (h.parse_using_declaration_list _ _ _))
      fun _ _ => errsLe_pok _ _
  parse_using_declaration_list := by
    intro c ds s
    simp only [famStep]
    refine errsLe_pbind (h.parse_variable_declarator _ _ _) fun d t => ?_
    set s2 := (if d.id.kind.is_binding_identifier = true then t
               else t.pushError Diag.invalidIdentifierInUsingDeclaration) with hs2
    set s3 := (if d.init.isNone = true ∧ c ≠ StatementContext.forCtx then
                 s2.pushError Diag.missingInitializerInUsingDeclaration
               else s2) with hs3
    have h2 : ErrsLe t s2 := by
      rw [hs2]
      split
      · exact errsLe_refl t
      · exact errsLe_push t _
    have h3 : ErrsLe t s3 := errsLe_trans h2 (by rw [hs3]; exact errsLe_ite_push _ _ _)
    have h4 : ErrsLe t (s3.eat Kind.comma).2 := errsLe_trans h3 (errsLe_eat _ _)
    split
    · exact errsLe_trans h4 (h.parse_using_declaration_list _ _ _)
    · exact errsLe_trans h4 (errsLe_pok _ _)
  parse_using := by
    intro s
    simp only [famStep]
    refine errsLe_pbind (h.parse_using_declaration _ _) fun _ t => ?_
    exact errsLe_pbind (errsLe_asi t) fun _ _ => errsLe_pok _ _

theorem famEP (n : Nat) : FamEP (fam n) := by
  induction n with
  | zero => constructor <;> intros <;> exact fun _ hh => hh
  | succ n ih => exact famEP_step (fam n) ih

theorem mem_pushError (s : PState) (d : Diag) : d ∈ (s.pushError d).errors := by
  simp [PState.pushError]

theorem errsLe_famStep_using_list (F : Fam) (h : FamEP F) (c : StatementContext)
    (ds : List VariableDeclarator) (s : PState) :
    ErrsLe s ((famStep F).parse_using_declaration_list c ds s).2 :=
  (famEP_step F h).parse_using_declaration_list c ds s

/-- C1: In `parse_binary_expression_rest`, for every operator token with a
precedence the climbing loop stops exactly under the associativity-sensitive
comparison — a left-associative operator stops when its precedence is `≤` the
minimum, a right-associative one only when it is `<` the minimum (first
conjunct: the loop returns the left-hand side with the state untouched;
second conjunct: otherwise, `in`-suppression aside, the loop consumes the
operator and recurses at the operator's precedence before folding).
Consequently `a - b - c` parses left-nested, `a ** b ** c` right-nested, and
`a + b * c` groups as `a + (b * c)` (remaining conjuncts). -/
theorem c1_precedence_climbing :
    (∀ (n : Nat) (s : PState) (lhs : Expression) (minPrecedence p : Nat),
      kind_to_precedence s.curKind = some p →
      ((isRightAssociative p = true ∧ p < minPrecedence) ∨
       (isRightAssociative p = false ∧ p ≤ minPrecedence)) →
      parse_binary_expression_rest (n + 1) lhs minPrecedence s = (Except.ok lhs, s)) ∧
    (∀ (n : Nat) (s : PState) (lhs : Expression) (minPrecedence p : Nat),
      kind_to_precedence s.curKind = some p →
      ¬(isRightAssociative p = true ∧ p < minPrecedence) →
      ¬(isRightAssociative p = false ∧ p ≤ minPrecedence) →
      ¬(s.curKind = Kind.inKw ∧ s.ctx.has_in = false) →
      parse_binary_expression_rest (n + 1) lhs minPrecedence s =
        pbind ((fam n).parse_binary_expression_or_higher p s.bump) (fun rhs s2 =>
          if s.curKind.is_logical_operator then
            (fam n).parse_binary_expression_rest
              (.logical (map_logical_operator s.curKind) lhs rhs) minPrecedence s2
          else if s.curKind.is_binary_operator then
            (fam n).parse_binary_expression_rest
              (.binary (map_binary_operator s.curKind) lhs rhs) minPrecedence s2
          else pok lhs s2)) ∧
    (parse_binary_expression_or_higher 20 Precedence.lowest
        (stOf [ide "a", tk .minus, ide "b", tk .minus, ide "c"])).1 =
      Except.ok (.binary .sub
        (.binary .sub (.identifierReference "a") (.identifierReference "b"))
        (.identifierReference "c")) ∧
    (parse_binary_expression_or_higher 20 Precedence.lowest
        (stOf [ide "a", tk .star2, ide "b", tk .star2, ide "c"])).1 =
      Except.ok (.binary .exp (.identifierReference "a")
        (.binary .exp (.identifierReference "b") (.identifierReference "c"))) ∧
    (parse_binary_expression_or_higher 20 Precedence.lowest
        (stOf [ide "a", tk .plus, ide "b", tk .star, ide "c"])).1 =
      Except.ok (.binary .add (.identifierReference "a")
        (.binary .mul (.identifierReference "b") (.identifierReference "c"))) := by
  refine ⟨?_, ?_, rfl, rfl, rfl⟩
  · rintro n s lhs minP p h (⟨hra, hcmp⟩ | ⟨hra, hcmp⟩) <;>
    · simp only [parse_binary_expression_rest, fam, famStep, re_lex_right_angle, h, hra]
      simp [hcmp, pok]
  · intro n s lhs minP p h h1 h2 h3
    simp only [parse_binary_expression_rest, fam, famStep, re_lex_right_angle, h]
    have hstop : (if isRightAssociative p then decide (p < minP)
        else decide (p ≤ minP)) = false := by
      cases hra : isRightAssociative p <;> simp_all
    rw [hstop]
    simp only [Bool.false_eq_true, if_false]
    rw [if_neg h3]

/-- Witness for C1: with the left-associative `-` (additive precedence) at the
head and `minPrecedence` equal to that same precedence, the climbing loop
stops and returns the left-hand side with the state untouched. -/
theorem c1_precedence_climbing_witness :
    parse_binary_expression_rest 5 (Expression.identifierReference "b")
      Precedence.addLevel (stOf [tk .minus, ide "c"]) =
      (Except.ok (Expression.identifierReference "b"), stOf [tk .minus, ide "c"]) :=
  c1_precedence_climbing.1 4 _ _ Precedence.addLevel Precedence.addLevel rfl
    (Or.inr ⟨rfl, le_refl _⟩)

/-- C2 counterexample: on `a ?. b !` (TS mode) the chain-optional flag is set
by the `?.` link (visible as `optional := true` in the member node), yet the
expression that reaches the caller of `parse_lhs_expression_or_higher` is the
non-null assertion, not wrapped in any chain-expression node. -/
theorem c2_counterexample :
    (parse_lhs_expression_or_higher 9
        { tokens := [ide "a", tk .questionDot, ide "b", tk .bang], tsEnabled := true }).1 =
      Except.ok (.tsNonNull (.staticMember (.identifierReference "a") "b" true)) ∧
    Expression.isChainExpression
      (.tsNonNull (.staticMember (.identifierReference "a") "b" true)) = false :=
  ⟨rfl, rfl⟩

/-- C2 (amended): at chain completion the accumulated expression is wrapped in
exactly one chain node provided its outermost variant is a member or call
expression; any other outermost variant (e.g. a TS non-null assertion) is
returned unchanged even when a `?.` link set the chain flag.  `a?.b.c` yields
exactly one chain wrapper around the whole member access, and `a.b.c` (no
`?.`) yields none. -/
theorem c2_chain_wrapping :
    (∀ e : Expression, (e.isMemberExpression || e.isCallExpression) = true →
      map_to_chain_expression e = .chain e) ∧
    (∀ e : Expression, (e.isMemberExpression || e.isCallExpression) = false →
      map_to_chain_expression e = e) ∧
    (parse_lhs_expression_or_higher 9
        (stOf [ide "a", tk .questionDot, ide "b", tk .dot, ide "c"])).1 =
      Except.ok (.chain (.staticMember
        (.staticMember (.identifierReference "a") "b" true) "c" false)) ∧
    (parse_lhs_expression_or_higher 9
        (stOf [ide "a", tk .dot, ide "b", tk .dot, ide "c"])).1 =
      Except.ok (.staticMember
        (.staticMember (.identifierReference "a") "b" false) "c" false) ∧
    (parse_lhs_expression_or_higher 9
        { tokens := [ide "a", tk .questionDot, ide "b", tk .bang], tsEnabled := true }).1 =
      Except.ok (.tsNonNull (.staticMember (.identifierReference "a") "b" true)) := by
  refine ⟨?_, ?_, rfl, rfl, rfl⟩
  · intro e he
    cases e <;> simp_all [map_to_chain_expression, Expression.isMemberExpression,
      Expression.isCallExpression]
  · intro e he
    cases e <;> simp_all [map_to_chain_expression, Expression.isMemberExpression,
      Expression.isCallExpression]

/-- Witness for C2: a member expression is wrapped by
`map_to_chain_expression`. -/
theorem c2_chain_wrapping_witness :
    map_to_chain_expression (.staticMember (.identifierReference "a") "b" true) =
      .chain (.staticMember (.identifierReference "a") "b" true) :=
  c2_chain_wrapping.1 _ rfl

/-- C3: `parse_let` dispatches on the token after `let`: an assignment or
binary operator yields an expression statement parsed from `let` as an
identifier (row 1); `.` or `(` yields an expression statement continuing as a
member/call chain (row 2); a single-statement position with a peeked token
other than `[`, or a bare `;`, yields an identifier expression statement
(row 3); anything else is a `let` variable declaration (row 4).  Concretely,
`let = 1;` is an expression statement assigning to the identifier `let`, and
`let x = 1;` is a `let` declaration with one declarator. -/
theorem c3_let_dispatch :
    (∀ (n : Nat) (c : StatementContext) (s : PState),
      (s.peekKind.is_assignment_operator = true ∨ s.peekKind.is_binary_operator = true) →
      parse_let (n + 1) c s =
        pbind ((fam n).parse_assignment_expression_or_higher s) parse_expression_statement) ∧
    (∀ (n : Nat) (c : StatementContext) (s : PState),
      s.peekKind.is_assignment_operator = false → s.peekKind.is_binary_operator = false →
      (s.peekKind = Kind.dot ∨ s.peekKind = Kind.lparen) →
      parse_let (n + 1) c s =
        pbind ((fam n).parse_expr s) fun expr s => pok (.expressionStatement expr) s) ∧
    (∀ (n : Nat) (c : StatementContext) (s : PState),
      s.peekKind.is_assignment_operator = false → s.peekKind.is_binary_operator = false →
      ¬(s.peekKind = Kind.dot ∨ s.peekKind = Kind.lparen) →
      ((c.is_single_statement = true ∧ s.peekKind ≠ Kind.lbrack) ∨
        s.peekKind = Kind.semicolon) →
      parse_let (n + 1) c s =
        pbind (parse_identifier_expression s) parse_expression_statement) ∧
    (∀ (n : Nat) (c : StatementContext) (s : PState),
      s.peekKind.is_assignment_operator = false → s.peekKind.is_binary_operator = false →
      ¬(s.peekKind = Kind.dot ∨ s.peekKind = Kind.lparen) →
      ¬((c.is_single_statement = true ∧ s.peekKind ≠ Kind.lbrack) ∨
        s.peekKind = Kind.semicolon) →
      parse_let (n + 1) c s = (fam n).parse_variable_statement c s) ∧
    parse_let 20 .statementList (stOf [tk .letKw, tk .eq, tk (.num 1), tk .semicolon]) =
      (Except.ok (.expressionStatement
        (.assignment (.identifierReference "let") (.numberLit 1))), stOf []) ∧
    parse_let 20 .statementList
        (stOf [tk .letKw, ide "x", tk .eq, tk (.num 1), tk .semicolon]) =
      (Except.ok (.declarationStatement
        { kind := .letKind,
          declarations := [{ kind := .letKind, id := { kind := .bindingIdentifier "x" },
                             init := some (.numberLit 1) }] }), stOf []) ∧
    parse_let 20 .statementList (stOf [tk .letKw, tk .instanceofKw, ide "y", tk .semicolon]) =
      (Except.ok (.expressionStatement
        (.binary .instanceofOp (.identifierReference "let") (.identifierReference "y"))),
       stOf []) ∧
    parse_let 20 .statementList (stOf [tk .letKw, tk .dot, ide "a", tk .semicolon]) =
      (Except.ok (.expressionStatement
        (.staticMember (.identifierReference "let") "a" false)), stOf [tk .semicolon]) ∧
    parse_let 20 .ifSingle (stOf [tk .letKw]) =
      (Except.ok (.expressionStatement (.identifierReference "let")), stOf []) ∧
    parse_let 20 .statementList (stOf [tk .letKw, tk .semicolon]) =
      (Except.ok (.expressionStatement (.identifierReference "let")), stOf []) := by
  refine ⟨?_, ?_, ?_, ?_, rfl, rfl, rfl, rfl, rfl, rfl⟩
  · intro n c s h
    simp only [parse_let, fam, famStep]
    rw [if_pos h]
  · intro n c s h1 h2 h3
    simp only [parse_let, fam, famStep]
    rw [if_neg (by simp [h1, h2]), if_pos h3]
  · intro n c s h1 h2 h3 h4
    simp only [parse_let, fam, famStep]
    rw [if_neg (by simp [h1, h2]), if_neg h3, if_pos h4]
  · intro n c s h1 h2 h3 h4
    simp only [parse_let, fam, famStep]
    rw [if_neg (by simp [h1, h2]), if_neg h3, if_neg h4]

/-- Witness for C3: one instantiation of each dispatch row at a concrete
state. -/
theorem c3_let_dispatch_witness :
    parse_let 20 .statementList (stOf [tk .letKw, tk .eq, tk (.num 1), tk .semicolon]) =
      pbind ((fam 19).parse_assignment_expression_or_higher
        (stOf [tk .letKw, tk .eq, tk (.num 1), tk .semicolon])) parse_expression_statement ∧
    parse_let 20 .statementList (stOf [tk .letKw, tk .dot, ide "a", tk .semicolon]) =
      pbind ((fam 19).parse_expr (stOf [tk .letKw, tk .dot, ide "a", tk .semicolon]))
        (fun expr s => pok (.expressionStatement expr) s) ∧
    parse_let 20 .statementList (stOf [tk .letKw, tk .semicolon]) =
      pbind (parse_identifier_expression (stOf [tk .letKw, tk .semicolon]))
        parse_expression_statement ∧
    parse_let 20 .statementList (stOf [tk .letKw, ide "x", tk .eq, tk (.num 1), tk .semicolon]) =
      (fam 19).parse_variable_statement .statementList
        (stOf [tk .letKw, ide "x", tk .eq, tk (.num 1), tk .semicolon]) :=
  ⟨c3_let_dispatch.1 19 _ _ (Or.inl rfl),
   c3_let_dispatch.2.1 19 _ _ rfl rfl (Or.inl rfl),
   c3_let_dispatch.2.2.1 19 _ _ rfl rfl (by decide) (Or.inr rfl),
   c3_let_dispatch.2.2.2.1 19 _ _ rfl rfl (by decide) (by decide)⟩

/-- C4 counterexample: `parse_expr` entered with the Decorator flag set, on a
single expression (no comma), returns with the Decorator flag cleared — the
flag is not restored on this return path. -/
theorem c4_counterexample :
    (parse_expr 9 { tokens := [ide "a"], ctx := { decoratorFlag := true } }).1 =
      Except.ok (.identifierReference "a") ∧
    ((parse_expr 9
        { tokens := [ide "a"], ctx := { decoratorFlag := true } }).2).ctx.has_decorator =
      false :=
  ⟨rfl, rfl⟩

/-- C4 (amended): the scoped `context` helper always restores the caller's
flags, also on error (first conjunct, for every sub-parse `f`); `parse_expr`,
however, restores the Decorator flag it cleared only on the
sequence-expression success path — on the single-expression path and on the
error path it returns with the flag still cleared. -/
theorem c4_context_flags :
    (∀ (α : Type) (add remove : Context) (f : PState → PResult α) (s : PState),
      ((withCtx add remove f s).2).ctx = s.ctx) ∧
    ((parse_expr 9
        { tokens := [ide "a", tk .comma, ide "b"],
          ctx := { decoratorFlag := true } }).2).ctx.has_decorator = true ∧
    ((parse_expr 9
        { tokens := [ide "a"], ctx := { decoratorFlag := true } }).2).ctx.has_decorator =
      false ∧
    ((parse_expr 9
        { tokens := [tk .rparen], ctx := { decoratorFlag := true } }).2).ctx.has_decorator =
      false ∧
    (parse_expr 9 { tokens := [tk .rparen], ctx := { decoratorFlag := true } }).1 =
      Except.error (Diag.unexpected Kind.rparen) :=
  ⟨fun _ _ _ _ _ => rfl, rfl, rfl, rfl, rfl⟩

/-- C8: a tagged template whose tag position follows an optional-chain link
gets the tagged-template-after-optional-chain diagnostic reported
(non-fatally) and still produces the tagged-template node (first conjunct);
with no optional-chain link in force, `parse_tagged_template` leaves the
diagnostic sink exactly as it was (second conjunct).  Concretely, a chain for
`` a?.b`x` `` carries the diagnostic and the tagged-template node, while
`` a.b`x` `` parses with an empty sink. -/
theorem c8_tagged_template :
    (∀ (lhs : Expression) (s : PState) (e : Expression) (s2 : PState),
      parse_tagged_template lhs true s = (Except.ok e, s2) →
      Diag.optionalChainTaggedTemplate ∈ s2.errors ∧ e = .taggedTemplate lhs) ∧
    (∀ (lhs : Expression) (s : PState),
      ((parse_tagged_template lhs false s).2).errors = s.errors) ∧
    parse_lhs_expression_or_higher 9
        (stOf [ide "a", tk .questionDot, ide "b", tk .noSubstitutionTemplate]) =
      (Except.ok (.taggedTemplate (.staticMember (.identifierReference "a") "b" true)),
       { tokens := [], errors := [Diag.optionalChainTaggedTemplate] }) ∧
    parse_lhs_expression_or_higher 9
        (stOf [ide "a", tk .dot, ide "b", tk .noSubstitutionTemplate]) =
      (Except.ok (.taggedTemplate (.staticMember (.identifierReference "a") "b" false)),
       stOf []) := by
  refine ⟨?_, ?_, rfl, rfl⟩
  · intro lhs s e s2 hrun
    unfold parse_tagged_template at hrun
    cases h1 : parse_template_literal true s with
    | mk r1 t1 =>
      rw [h1] at hrun
      cases r1 with
      | error d => simp [pbind] at hrun
      | ok u =>
        simp only [pbind, if_pos rfl, pok, Prod.mk.injEq, Except.ok.injEq] at hrun
        obtain ⟨he, hs2⟩ := hrun
        subst he
        subst hs2
        exact ⟨List.mem_append_right _ (List.mem_singleton.mpr rfl), rfl⟩
  · intro lhs s
    unfold parse_tagged_template
    cases h1 : parse_template_literal true s with
    | mk r1 t1 =>
      have ht : t1.errors = s.errors := by
        have := congrArg (fun r => (r.2).errors) h1
        simp at this
        rw [← this]
        unfold parse_template_literal
        split <;> rfl
      cases r1 with
      | error d => simp [pbind, ht]
      | ok u => simp [pbind, pok, ht]

/-- Witness for C8: the diagnostic is recorded on a concrete
tagged-template-in-optional-chain parse. -/
theorem c8_tagged_template_witness :
    Diag.optionalChainTaggedTemplate ∈
      ((parse_tagged_template (Expression.identifierReference "a") true
        (stOf [tk .noSubstitutionTemplate])).2).errors :=
  (c8_tagged_template.1 (Expression.identifierReference "a")
    (stOf [tk .noSubstitutionTemplate])
    (.taggedTemplate (.identifierReference "a"))
    { tokens := [], errors := [Diag.optionalChainTaggedTemplate] } rfl).1

/-- C10: `map_to_chain_expression` wraps an expression in a chain node only
when the outermost variant is a member expression (first conjunct) or a call
expression (second conjunct); every other outermost variant is returned
unchanged (third conjunct), so a chain containing a `?.` link — here ending
in a tagged template — reaches the caller of
`parse_lhs_expression_or_higher` without a chain wrapper (last conjuncts). -/
theorem c10_map_to_chain :
    (∀ e : Expression, e.isMemberExpression = true →
      map_to_chain_expression e = .chain e) ∧
    (∀ (c : Expression) (args : List Expression) (b : Bool),
      map_to_chain_expression (.call c args b) = .chain (.call c args b)) ∧
    (∀ e : Expression, e.isMemberExpression = false → e.isCallExpression = false →
      map_to_chain_expression e = e) ∧
    (parse_lhs_expression_or_higher 9
        (stOf [ide "x", tk .questionDot, ide "y", tk .noSubstitutionTemplate])).1 =
      Except.ok (.taggedTemplate (.staticMember (.identifierReference "x") "y" true)) ∧
    Expression.isChainExpression
      (.taggedTemplate (.staticMember (.identifierReference "x") "y" true)) = false := by
  refine ⟨?_, fun _ _ _ => rfl, ?_, rfl, rfl⟩
  · intro e he
    cases e <;> simp_all [map_to_chain_expression, Expression.isMemberExpression]
  · intro e h1 h2
    cases e <;> simp_all [map_to_chain_expression, Expression.isMemberExpression,
      Expression.isCallExpression]

/-- Witness for C10: a member expression with a different shape than any other
claim's witness is wrapped. -/
theorem c10_map_to_chain_witness :
    map_to_chain_expression (.computedMember (.identifierReference "o")
        (.numberLit 0) false) =
      .chain (.computedMember (.identifierReference "o") (.numberLit 0) false) :=
  c10_map_to_chain.1 _ rfl

theorem eat_ctx (s : PState) (k : Kind) : ((s.eat k).2).ctx = s.ctx := by
  unfold PState.eat
  split <;> rfl

theorem parse_binding_pattern_kind_ctx (s : PState) :
    ((parse_binding_pattern_kind s).2).ctx = s.ctx := by
  unfold parse_binding_pattern_kind
  split
  · split <;> rfl
  · split <;> rfl

theorem parse_ts_type_annot_ctx (s : PState) :
    ((parse_ts_type_annot s).2).ctx = s.ctx := by
  unfold parse_ts_type_annot
  split
  · split <;> rfl
  · rfl


/-- C5: in `parse_variable_declarator`, for every declarator without
initializer whose declaration parent is a top-level statement, a binding
target that is not a plain identifier always gets the invalid-destructuring
diagnostic, and a plain-identifier `const` binding outside an ambient context
gets the missing-initializer diagnostic; in both cases the declarator node is
still produced (the run returns `ok`).  Concretely, `const x` with parent
Statement reports exactly the missing-initializer diagnostic and still
produces the declarator, `const x = 1` reports none, an ambient `const x`
reports none, a `Clause`-parented `const x` reports none, and `let [a]`
reports the invalid-destructuring diagnostic. -/
theorem c5_declarator_validation :
    (∀ (n : Nat) (declCtx : VariableDeclarationContext) (kind : VariableDeclarationKind)
       (s : PState) (d : VariableDeclarator) (s2 : PState),
      parse_variable_declarator (n + 1) declCtx kind s = (Except.ok d, s2) →
      d.init.isNone = true → declCtx.parent = .statement →
      (d.id.kind.is_binding_identifier = false →
        Diag.invalidDestructuringDeclaration ∈ s2.errors) ∧
      (d.id.kind.is_binding_identifier = true → kind = .constKind →
        s.ctx.has_ambient = false → Diag.missingInitializerInConst ∈ s2.errors)) ∧
    parse_variable_declarator 9 ⟨.statement⟩ .constKind (stOf [ide "x"]) =
      (Except.ok { kind := .constKind, id := { kind := .bindingIdentifier "x" }, init := none },
       { tokens := [], errors := [Diag.missingInitializerInConst] }) ∧
    ((parse_variable_declarator 9 ⟨.statement⟩ .constKind
        (stOf [ide "x", tk .eq, tk (.num 1)])).2).errors = [] ∧
    ((parse_variable_declarator 9 ⟨.statement⟩ .constKind
        { tokens := [ide "x"], ctx := { ambientFlag := true } }).2).errors = [] ∧
    ((parse_variable_declarator 9 ⟨.clause⟩ .constKind (stOf [ide "x"])).2).errors = [] ∧
    parse_variable_declarator 9 ⟨.statement⟩ .letKind (stOf [tk .lbrack, ide "a", tk .rbrack]) =
      (Except.ok { kind := .letKind, id := { kind := .arrayPattern ["a"] }, init := none },
       { tokens := [], errors := [Diag.invalidDestructuringDeclaration] }) := by
  refine ⟨?_, rfl, rfl, rfl, rfl, rfl⟩
  intro n declCtx kind s d s2 hrun hinit hparent
  simp only [parse_variable_declarator, fam, famStep] at hrun
  cases h1 : parse_binding_pattern_kind s with
  | mk r1 t1 =>
    rw [h1] at hrun
    have hctx1 : t1.ctx = s.ctx := by
      rw [← parse_binding_pattern_kind_ctx s, h1]
    cases r1 with
    | error e => simp [pbind] at hrun
    | ok bk =>
      simp only [pbind] at hrun
      -- split the pbind over the (ts-mode dependent) binding-pattern step
      split at hrun
      · simp at hrun
      · rename_i idDef sMid heq
        -- split the pbind over the optional initializer
        split at hrun
        · simp at hrun
        · rename_i init sInit heq2
          -- the final construction: invert the produced declarator and state
          simp only [pok, Prod.mk.injEq, Except.ok.injEq] at hrun
          obtain ⟨hd, hs2⟩ := hrun
          -- the initializer is absent (otherwise `hinit` is contradictory)
          split at heq2
          · split at heq2
            · simp at heq2
            · rename_i e sE heq3
              simp only [pok, Prod.mk.injEq, Except.ok.injEq] at heq2
              obtain ⟨hinit2, _⟩ := heq2
              rw [← hd] at hinit
              rw [← hinit2] at hinit
              simp at hinit
          · simp only [pok, Prod.mk.injEq, Except.ok.injEq] at heq2
            obtain ⟨hinit2, hsInit⟩ := heq2
            -- identify the parsed binding pattern inside `idDef`
            have hid : idDef.1.kind = bk := by
              split at heq
              · split at heq
                · simp at heq
                · simp only [pok, Prod.mk.injEq, Except.ok.injEq] at heq
                  obtain ⟨hidDef, _⟩ := heq
                  rw [← hidDef]
              · simp only [pok, Prod.mk.injEq, Except.ok.injEq] at heq
                obtain ⟨hidDef, _⟩ := heq
                rw [← hidDef]
            have hidctx : sMid.ctx = s.ctx := by
              split at heq
              · split at heq
                · simp at heq
                · rename_i hta tAnn heq4
                  simp only [pok, Prod.mk.injEq, Except.ok.injEq] at heq
                  obtain ⟨_, hsMid⟩ := heq
                  have := congrArg (fun r => (r.2).ctx) heq4
                  simp only [parse_ts_type_annot_ctx] at this
                  rw [← hsMid, ← this, eat_ctx]
                  split <;> simp [eat_ctx, hctx1]
              · simp only [pok, Prod.mk.injEq, Except.ok.injEq] at heq
                obtain ⟨_, hsMid⟩ := heq
                rw [← hsMid, hctx1]
          -- now reason about the validation step itself
            subst hd
            subst hs2
            rw [← hinit2]
            rw [← hinit2] at hinit
            constructor
            · intro hni
              rw [hid] at hni
              simp only [hid, hparent, hni, Option.isNone_none, true_and, if_pos rfl]
              simp [PState.pushError]
            · intro hbi hkind hambient
              rw [hid] at hbi
              have hc3 : (sMid.eat Kind.eq).2.ctx.has_ambient = false := by
                rw [eat_ctx, hidctx]
                exact hambient
              rw [hsInit] at hc3
              simp [hid, hparent, hbi, hkind, hc3, PState.pushError]

/-- Witness for C5: the missing-initializer diagnostic is derivable through
the universal validation statement at the concrete `const x` input. -/
theorem c5_declarator_validation_witness :
    Diag.missingInitializerInConst ∈
      ({ tokens := [], errors := [Diag.missingInitializerInConst] } : PState).errors :=
  (c5_declarator_validation.1 8 ⟨.statement⟩ .constKind (stOf [ide "x"])
    { kind := .constKind, id := { kind := .bindingIdentifier "x" }, init := none }
    { tokens := [], errors := [Diag.missingInitializerInConst] }
    rfl rfl rfl).2 rfl rfl rfl

theorem errsLe_usingChecked {c : StatementContext} {d : VariableDeclarator}
    {s t : PState} (h : ErrsLe s t) (hc : UsingDeclaratorChecked c d s.errors) :
    UsingDeclaratorChecked c d t.errors :=
  ⟨fun h1 => h _ (hc.1 h1), fun h1 h2 => h _ (hc.2 h1 h2)⟩

theorem using_list_spec (n : Nat) :
    ∀ (c : StatementContext) (acc : List VariableDeclarator) (s : PState)
      (ds : List VariableDeclarator) (s2 : PState),
      parse_using_declaration_list n c acc s = (Except.ok ds, s2) →
      (∀ d ∈ acc, UsingDeclaratorChecked c d s.errors) →
      ∀ d ∈ ds, UsingDeclaratorChecked c d s2.errors := by
  induction n with
  | zero =>
    intro c acc s ds s2 hrun hacc
    simp [parse_using_declaration_list, fam, famZero, perr] at hrun
  | succ n ih =>
    intro c acc s ds s2 hrun hacc
    simp only [parse_using_declaration_list, fam, famStep] at hrun
    cases h1 : (fam n).parse_variable_declarator ⟨.statement⟩ .varKind s with
    | mk r1 t1 =>
      rw [h1] at hrun
      cases r1 with
      | error e => simp [pbind] at hrun
      | ok d1 =>
        simp only [pbind] at hrun
        set sa := (if d1.id.kind.is_binding_identifier = true then t1
                   else t1.pushError Diag.invalidIdentifierInUsingDeclaration) with hsa
        set sb := (if d1.init.isNone = true ∧ c ≠ StatementContext.forCtx then
                     sa.pushError Diag.missingInitializerInUsingDeclaration
                   else sa) with hsb
        have hT1 : ErrsLe s t1 := by
          have := (famEP n).parse_variable_declarator ⟨.statement⟩ .varKind s
          rw [h1] at this
          exact this
        have hTa : ErrsLe t1 sa := by
          rw [hsa]
          split
          · exact errsLe_refl t1
          · exact errsLe_push t1 _
        have hTb : ErrsLe sa sb := by
          rw [hsb]
          exact errsLe_ite_push _ _ _
        have hmono : ErrsLe s (sb.eat Kind.comma).2 :=
          errsLe_trans hT1 (errsLe_trans hTa (errsLe_trans hTb (errsLe_eat _ _)))
        have hchecked : UsingDeclaratorChecked c d1 ((sb.eat Kind.comma).2).errors := by
          constructor
          · intro hni
            refine errsLe_eat sb Kind.comma _ (hTb _ ?_)
            rw [hsa, if_neg (by simp [hni])]
            exact mem_pushError t1 _
          · intro hmi hfor
            refine errsLe_eat sb Kind.comma _ ?_
            rw [hsb, if_pos ⟨hmi, hfor⟩]
            exact mem_pushError sa _
        have hnext : ∀ d ∈ acc ++ [d1],
            UsingDeclaratorChecked c d ((sb.eat Kind.comma).2).errors := by
          intro d hd
          rcases List.mem_append.mp hd with hd | hd
          · exact errsLe_usingChecked hmono (hacc d hd)
          · rw [List.mem_singleton.mp hd]
            exact hchecked
        split at hrun
        · exact ih c (acc ++ [d1]) (sb.eat Kind.comma).2 ds s2 hrun hnext
        · simp only [pok, Prod.mk.injEq, Except.ok.injEq] at hrun
          obtain ⟨hds, hs2⟩ := hrun
          subst hds
          subst hs2
          exact hnext

/-- C6: in `parse_using_declaration`, every declarator of every successful
parse satisfies the `using` validations — a non-plain-identifier binding has
the invalid-binding diagnostic reported, and a missing initializer has the
missing-initializer diagnostic reported unless the statement context is a
`for`-loop head; the declarator is kept either way (the run returns `ok` with
the declarator in the list).  Concretely, `using x = f();` produces no
diagnostic, `using [a] = f();` reports exactly the invalid-binding
diagnostic, and a `for`-head `using x of y` is accepted with no initializer
and no diagnostic. -/
theorem c6_using_validation :
    (∀ (n : Nat) (c : StatementContext) (s : PState) (u : UsingDeclaration) (s2 : PState),
      parse_using_declaration (n + 1) c s = (Except.ok u, s2) →
      ∀ d ∈ u.declarations, UsingDeclaratorChecked c d s2.errors) ∧
    parse_using_declaration 12 .statementList
        (stOf [tk .usingKw, ide "x", tk .eq, ide "f", tk .lparen, tk .rparen, tk .semicolon]) =
      (Except.ok
        { isAwait := false,
          declarations := [{ kind := .varKind, id := { kind := .bindingIdentifier "x" },
                             init := some (.call (.identifierReference "f") [] false) }] },
       { tokens := [tk .semicolon] }) ∧
    parse_using_declaration 12 .statementList
        (stOf [tk .usingKw, tk .lbrack, ide "a", tk .rbrack, tk .eq, ide "f", tk .lparen,
               tk .rparen, tk .semicolon]) =
      (Except.ok
        { isAwait := false,
          declarations := [{ kind := .varKind, id := { kind := .arrayPattern ["a"] },
                             init := some (.call (.identifierReference "f") [] false) }] },
       { tokens := [tk .semicolon],
         errors := [Diag.invalidIdentifierInUsingDeclaration] }) ∧
    parse_using_declaration 12 .forCtx (stOf [tk .usingKw, ide "x", tk .ofKw, ide "y"]) =
      (Except.ok
        { isAwait := false,
          declarations := [{ kind := .varKind, id := { kind := .bindingIdentifier "x" },
                             init := none }] },
       { tokens := [tk .ofKw, ide "y"] }) := by
  refine ⟨?_, rfl, rfl, rfl⟩
  intro n c s u s2 hrun
  simp only [parse_using_declaration, fam, famStep] at hrun
  cases h1 : expectKind Kind.usingKw (s.eat Kind.awaitKw).2 with
  | mk r1 t1 =>
    rw [h1] at hrun
    cases r1 with
    | error e => simp [pbind] at hrun
    | ok _ =>
      simp only [pbind] at hrun
      set sa := (if t1.curToken.isOnNewLine = true then
                   t1.pushError Diag.lineTerminatorBeforeUsing
                 else t1) with hsa
      set sb := (if sa.curKind = Kind.awaitKw then
                   ((sa.pushError Diag.awaitInUsingDeclaration).eat Kind.awaitKw).2
                 else sa) with hsb
      cases h2 : (fam n).parse_using_declaration_list c [] sb with
      | mk r2 t2 =>
        rw [h2] at hrun
        cases r2 with
        | error e => simp [pbind] at hrun
        | ok ds =>
          simp only [pbind, pok, Prod.mk.injEq, Except.ok.injEq] at hrun
          obtain ⟨hu, hs2⟩ := hrun
          intro d hd
          rw [← hu] at hd
          simp only at hd
          refine using_list_spec n c [] sb ds s2 ?_ (by intro d hd; simp at hd) d hd
          rw [← hs2]
          exact h2

/-- Witness for C6: the universal validation statement applied to the
concrete `using [a] = f();` parse yields the invalid-binding diagnostic. -/
theorem c6_using_validation_witness :
    Diag.invalidIdentifierInUsingDeclaration ∈
      ({ tokens := [tk .semicolon],
         errors := [Diag.invalidIdentifierInUsingDeclaration] } : PState).errors :=
  (c6_using_validation.1 11 .statementList
    (stOf [tk .usingKw, tk .lbrack, ide "a", tk .rbrack, tk .eq, ide "f", tk .lparen,
           tk .rparen, tk .semicolon])
    { isAwait := false,
      declarations := [{ kind := .varKind, id := { kind := .arrayPattern ["a"] },
                         init := some (.call (.identifierReference "f") [] false) }] }
    { tokens := [tk .semicolon], errors := [Diag.invalidIdentifierInUsingDeclaration] }
    rfl
    { kind := .varKind, id := { kind := .arrayPattern ["a"] },
      init := some (.call (.identifierReference "f") [] false) }
    (List.mem_singleton.mpr rfl)).1 rfl

/-- C7 counterexample: with a line break immediately before the `using`
keyword itself (the `using` token carries `isOnNewLine`), the declaration
parses successfully and no diagnostic at all is reported — in particular no
line-terminator diagnostic, contrary to the claim. -/
theorem c7_counterexample :
    (parse_using_declaration 12 .statementList
        (stOf [tkNL .usingKw, ide "x", tk .eq, tk (.num 1), tk .semicolon])).1 =
      Except.ok { isAwait := false,
                  declarations := [{ kind := .varKind,
                                     id := { kind := .bindingIdentifier "x" },
                                     init := some (.numberLit 1) }] } ∧
    ((parse_using_declaration 12 .statementList
        (stOf [tkNL .usingKw, ide "x", tk .eq, tk (.num 1), tk .semicolon])).2).errors = [] :=
  ⟨rfl, rfl⟩

/-- C7 (amended): the no-line-terminator rule is checked between `using` and
the token that follows it: whenever the token after `using` is preceded by a
line break, `parse_using_declaration` reports the line-terminator diagnostic
(non-fatally) on every outcome — with or without a leading `await` (first two
conjuncts); a line break before `using` itself is not reported (last
conjuncts). -/
theorem c7_line_terminator :
    (∀ (n : Nat) (c : StatementContext) (s : PState) (r : Except Diag UsingDeclaration)
       (s2 : PState),
      parse_using_declaration (n + 1) c s = (r, s2) →
      s.curKind = Kind.usingKw →
      ((s.bump).curToken).isOnNewLine = true →
      Diag.lineTerminatorBeforeUsing ∈ s2.errors) ∧
    (∀ (n : Nat) (c : StatementContext) (s : PState) (r : Except Diag UsingDeclaration)
       (s2 : PState),
      parse_using_declaration (n + 1) c s = (r, s2) →
      s.curKind = Kind.awaitKw → (s.bump).curKind = Kind.usingKw →
      ((s.bump.bump).curToken).isOnNewLine = true →
      Diag.lineTerminatorBeforeUsing ∈ s2.errors) ∧
    ((parse_using_declaration 12 .statementList
        (stOf [tk .usingKw, tkNL (.ident "x"), tk .eq, tk (.num 1), tk .semicolon])).2).errors =
      [Diag.lineTerminatorBeforeUsing] ∧
    ((parse_using_declaration 12 .statementList
        (stOf [tkNL .usingKw, ide "x", tk .eq, tk (.num 1), tk .semicolon])).2).errors = [] := by
  have main : ∀ (n : Nat) (c : StatementContext) (s0 : PState)
      (r : Except Diag UsingDeclaration) (s2 : PState) (isAwait : Bool),
      pbind (expectKind Kind.usingKw s0)
        (fun _ s =>
          pbind ((fam n).parse_using_declaration_list c []
            (if (if s.curToken.isOnNewLine = true then
                   s.pushError Diag.lineTerminatorBeforeUsing
                 else s).curKind = Kind.awaitKw then
              (((if s.curToken.isOnNewLine = true then
                   s.pushError Diag.lineTerminatorBeforeUsing
                 else s).pushError Diag.awaitInUsingDeclaration).eat Kind.awaitKw).2
             else
              (if s.curToken.isOnNewLine = true then
                 s.pushError Diag.lineTerminatorBeforeUsing
               else s)))
            (fun declarations s =>
              pok { isAwait := isAwait, declarations := declarations } s)) = (r, s2) →
      s0.curKind = Kind.usingKw → ((s0.bump).curToken).isOnNewLine = true →
      Diag.lineTerminatorBeforeUsing ∈ s2.errors := by
    intro n c s0 r s2 isAwait hrun husing hnl
    have hexp : expectKind Kind.usingKw s0 = (Except.ok (), s0.bump) := by
      unfold expectKind
      rw [if_pos husing]
      rfl
    rw [hexp] at hrun
    simp only [pbind] at hrun
    rw [if_pos hnl] at hrun
    set sp := (s0.bump).pushError Diag.lineTerminatorBeforeUsing with hsp
    set sb := (if sp.curKind = Kind.awaitKw then
                 ((sp.pushError Diag.awaitInUsingDeclaration).eat Kind.awaitKw).2
               else sp) with hsb
    have hmem : Diag.lineTerminatorBeforeUsing ∈ sb.errors := by
      have h2 : ErrsLe sp sb := by
        rw [hsb]
        split
        · exact errsLe_trans (errsLe_push _ _) (errsLe_eat _ _)
        · exact errsLe_refl _
      exact h2 _ (mem_pushError _ _)
    cases h2 : (fam n).parse_using_declaration_list c [] sb with
    | mk r2 t2 =>
      rw [h2] at hrun
      have hLe : ErrsLe sb t2 := by
        have := (famEP n).parse_using_declaration_list c [] sb
        rw [h2] at this
        exact this
      cases r2 with
      | error e =>
        simp only [pbind] at hrun
        have ht2 : t2 = s2 := congrArg Prod.snd hrun
        rw [← ht2]
        exact hLe _ hmem
      | ok ds =>
        simp only [pbind, pok] at hrun
        have ht2 : t2 = s2 := congrArg Prod.snd hrun
        rw [← ht2]
        exact hLe _ hmem
  refine ⟨?_, ?_, rfl, rfl⟩
  · intro n c s r s2 hrun husing hnl
    simp only [parse_using_declaration, fam, famStep] at hrun
    have heat : s.eat Kind.awaitKw = (false, s) := by
      unfold PState.eat
      rw [if_neg (by simp [husing])]
    rw [heat] at hrun
    exact main n c s r s2 false hrun husing hnl
  · intro n c s r s2 hrun hawait husing hnl
    simp only [parse_using_declaration, fam, famStep] at hrun
    have heat : s.eat Kind.awaitKw = (true, s.bump) := by
      unfold PState.eat
      rw [if_pos hawait]
    rw [heat] at hrun
    exact main n c s.bump r s2 true hrun husing hnl

/-- Witness for C7: the line-terminator diagnostic is derivable through the
universal statement at the concrete input with a line break after `using`. -/
theorem c7_line_terminator_witness :
    Diag.lineTerminatorBeforeUsing ∈
      ((parse_using_declaration 12 .statementList
        (stOf [tk .usingKw, tkNL (.ident "x"), tk .eq, tk (.num 1),
               tk .semicolon])).2).errors :=
  c7_line_terminator.1 11 .statementList
    (stOf [tk .usingKw, tkNL (.ident "x"), tk .eq, tk (.num 1), tk .semicolon])
    (parse_using_declaration 12 .statementList
      (stOf [tk .usingKw, tkNL (.ident "x"), tk .eq, tk (.num 1), tk .semicolon])).1
    (parse_using_declaration 12 .statementList
      (stOf [tk .usingKw, tkNL (.ident "x"), tk .eq, tk (.num 1), tk .semicolon])).2
    rfl rfl rfl

/-- C9 counterexample: with the Await context flag set (context requires
`await` semantics) but `=>` as the next token, the claim says `await` is
parsed as an await-expression; the code's `is_await_expression` returns
`false` and `parse_simple_unary_expression` parses an ordinary identifier
named `await`. -/
theorem c9_counterexample :
    is_await_expression
      { tokens := [tk .awaitKw, tk .arrow, ide "x"], ctx := { awaitFlag := true } } = false ∧
    (parse_simple_unary_expression 9
      { tokens := [tk .awaitKw, tk .arrow, ide "x"], ctx := { awaitFlag := true } }).1 =
      Except.ok (.identifierReference "await") ∧
    Expression.isAwaitExpression (.identifierReference "await") = false :=
  ⟨rfl, rfl, rfl⟩

/-- C9 (amended): `await` is parsed as an await-expression if and only if
`is_await_expression` resolves in its favor, where the `=>` lookahead takes
priority over everything (an `await => …` arrow parameter is an identifier
even in Await context); otherwise the Await context flag forces an
await-expression; otherwise the ambiguous followers `of` `(` `[` `/` and a
regexp token, a line break, or a token that cannot start an operand make
`await` an ordinary identifier (first conjunct, the exact characterization).
`parse_simple_unary_expression` then dispatches on `is_await_expression`:
when it holds, the await-expression parse runs and every successful result
is an await-expression node (second and third conjuncts); when it does not,
the ordinary update-expression layer runs (fourth conjunct), which at the
concrete arrow input yields the identifier `await` (last conjunct). -/
theorem c9_await_disambiguation :
    (∀ s : PState,
      is_await_expression s = true ↔
        (s.curKind = Kind.awaitKw ∧ s.peekKind ≠ Kind.arrow ∧
         (s.ctx.has_await = true ∨
           (¬(s.peekKind = Kind.ofKw ∨ s.peekKind = Kind.lparen ∨
              s.peekKind = Kind.lbrack ∨ s.peekKind = Kind.slash ∨
              s.peekKind = Kind.regExp) ∧
            (s.peekToken).isOnNewLine = false ∧
            s.peekKind.is_after_await_or_yield = true)))) ∧
    (∀ (n : Nat) (s : PState),
      s.curKind = Kind.awaitKw → is_await_expression s = true →
      parse_simple_unary_expression (n + 1) s = parse_await_expression n s) ∧
    (∀ (n : Nat) (s : PState) (e : Expression) (s2 : PState),
      parse_await_expression (n + 1) s = (Except.ok e, s2) →
      e.isAwaitExpression = true) ∧
    (∀ (n : Nat) (s : PState),
      s.curKind = Kind.awaitKw → is_await_expression s = false →
      parse_simple_unary_expression (n + 1) s = parse_update_expression n s) ∧
    (parse_simple_unary_expression 9
      { tokens := [tk .awaitKw, tk .arrow, ide "x"], ctx := { awaitFlag := true } }).1 =
      Except.ok (.identifierReference "await") := by
  refine ⟨?_, ?_, ?_, ?_, rfl⟩
  · intro s
    unfold is_await_expression
    split
    · split
      · rename_i h1 h2
        simp [h1, h2, PState.peekKind]
      · split
        · rename_i h1 h2 h3
          simp [h1, h2, h3, PState.peekKind]
        · split
          · rename_i h1 h2 h3 h4
            simp [h1, h2, h3, h4, PState.peekKind]
          · rename_i h1 h2 h3 h4
            simp only [Bool.and_eq_true, Bool.not_eq_true', PState.peekKind]
            constructor
            · rintro ⟨hln, hafter⟩
              exact ⟨h1, h2, Or.inr ⟨h4, hln, hafter⟩⟩
            · rintro ⟨_, _, hctx | ⟨_, hln, hafter⟩⟩
              · exact absurd hctx h3
              · exact ⟨hln, hafter⟩
    · rename_i h1
      simp [h1, PState.peekKind]
  · intro n s hk hia
    simp only [parse_simple_unary_expression, fam, famStep]
    rw [if_neg (by simp [hk, Kind.is_unary_operator]), if_pos ⟨hk, hia⟩]
    rfl
  · intro n s e s2 hrun
    simp only [parse_await_expression, fam, famStep] at hrun
    split at hrun
    all_goals
      simp only [pbind] at hrun
      split at hrun
      · exact absurd hrun (by simp)
      · simp only [pok, Prod.mk.injEq, Except.ok.injEq] at hrun
        rw [← hrun.1]
        rfl
  · intro n s hk hia
    simp only [parse_simple_unary_expression, fam, famStep]
    rw [if_neg (by simp [hk, Kind.is_unary_operator]), if_neg (by simp [hia])]
    rfl

/-- Witness for C9: in Await context with an identifier following, the
dispatch takes the await-expression branch. -/
theorem c9_await_disambiguation_witness :
    parse_simple_unary_expression 9
        { tokens := [tk .awaitKw, ide "x"], ctx := { awaitFlag := true } } =
      parse_await_expression 8
        { tokens := [tk .awaitKw, ide "x"], ctx := { awaitFlag := true } } :=
  c9_await_disambiguation.2.1 8
    { tokens := [tk .awaitKw, ide "x"], ctx := { awaitFlag := true } } rfl rfl
